import Mathlib

/-!
# The double-payment simulation of `src/pages/Idempotency.jsx`

A shallow embedding of the React component `Idempotency`: its `useState` cells, the
`currentKey` ref and the browser's queue of pending `setTimeout` callbacks form one
record `State`; every handler is a function on that record.

Modelling conventions.
* A handler runs against the state of the latest render (React flushes a click before
  the next one is delivered), so a click is one atomic function `State → State`.
* A `setTimeout` callback is kept as a `Timer` value holding exactly what its closure
  captured when it was created (for the protected charge: `key` and the `goodBalance`
  of the render in which the click happened).  Functional updates
  (`setX(prev => ...)`) read the state in which the callback fires.
* Balances are JavaScript numbers holding integers; they are modelled by `Int`.
* `goodCache` is a plain object with string keys and string values; it is modelled by
  an association list in insertion order.  Keys have the form `key_...`, so a lookup
  never reaches an inherited property of `Object.prototype`.
* The `time` field of a log entry (`new Date()`) is display-only and is left out.
* `Math.random().toString(36).substr(2, 9)` is an input of `resetSim`.
-/

namespace Idempotency

/-- One line of the simulated server log: `{ time, msg, color }` without the time. -/
structure LogEntry where
  msg : String
  color : String
deriving DecidableEq, Repr

/-- The object held in `goodCache`: own properties in insertion order. -/
abbrev Cache := List (String × String)

/-- Property read `goodCache[key]`; `none` stands for `undefined`. -/
def cacheGet : Cache → String → Option String
  | [], _ => none
  | (k, v) :: rest, key => if k = key then some v else cacheGet rest key

/-- Object spread with one computed property: `{ ...prev, [key]: value }`. -/
def cachePut : Cache → String → String → Cache
  | [], key, value => [(key, value)]
  | (k, v) :: rest, key, value =>
      if k = key then (k, value) :: rest else (k, v) :: cachePut rest key value

/-- JavaScript truthiness of `goodCache[key]`: `undefined` and `''` are falsy. -/
def truthy : Option String → Bool
  | none => false
  | some v => v != ""

/-- The text shown in the hover panel. -/
structure DetailPanel where
  visible : Bool
  title : String
  desc : String
deriving DecidableEq, Repr

/-- A pending `setTimeout` callback together with what its closure captured. -/
inductive Timer where
  /-- The callback `setTimeout(() => setBadClickCount(prev => prev - 1), 2000)`. -/
  | badClickDone
  /-- The unprotected charge, `setTimeout(..., 1500)` of `handleBadPay`. -/
  | badCharge
  /-- The callback `setTimeout(() => setBadWarning(false), 3000)`. -/
  | badWarningOff
  /-- The callback `setTimeout(() => setGoodSuccess(false), 3000)`. -/
  | goodSuccessOff
  /-- The protected charge, `setTimeout(..., 1500)` of `handleGoodPay`; the closure
  holds `key` and the `goodBalance` of the render of the click. -/
  | goodCharge (key : String) (goodBalance : Int)
deriving DecidableEq, Repr

/-- Delay in milliseconds passed to `setTimeout`. -/
def Timer.delay : Timer → Nat
  | .badClickDone => 2000
  | .badCharge => 1500
  | .badWarningOff => 3000
  | .goodSuccessOff => 3000
  | .goodCharge _ _ => 1500

/-- Recognises the 1500 ms callbacks scheduled by `handleGoodPay`. -/
def Timer.isGoodCharge : Timer → Bool
  | .goodCharge _ _ => true
  | _ => false

/-- The component state, the `currentKey` ref and the pending timeouts. -/
structure State where
  badBalance : Int
  goodBalance : Int
  badLogs : List LogEntry
  goodLogs : List LogEntry
  badWarning : Bool
  goodSuccess : Bool
  badClickCount : Int
  goodCache : Cache
  activeTab : String
  detailPanel : DetailPanel
  currentKey : String
  timers : List Timer
deriving DecidableEq, Repr

/-- The placeholder entry both logs start with. -/
def serverLogs : LogEntry := { msg := "// Server logs...", color := "text-slate-400" }

/-- State of the first render; `suffix` is the random part of the first key. -/
def init (suffix : String) : State :=
  { badBalance := 1000
    goodBalance := 1000
    badLogs := [serverLogs]
    goodLogs := [serverLogs]
    badWarning := false
    goodSuccess := false
    badClickCount := 0
    goodCache := []
    activeTab := "stripe"
    detailPanel := { visible := false, title := "", desc := "" }
    currentKey := "key_" ++ suffix
    timers := [] }

/-- Appends to `badLogs` when `type` is `'bad'` and to `goodLogs` otherwise. -/
def addLog (s : State) (type msg color : String) : State :=
  if type = "bad" then
    { s with badLogs := s.badLogs ++ [{ msg := msg, color := color }] }
  else
    { s with goodLogs := s.goodLogs ++ [{ msg := msg, color := color }] }

/-- The click handler of scenario A. -/
def handleBadPay (s : State) : State :=
  if s.badBalance < 100 then s
  else
    let s1 := addLog s "bad" "Request POST /charge initiated..." "text-yellow-400"
    { s1 with
      badClickCount := s1.badClickCount + 1
      timers := s1.timers ++ [Timer.badClickDone, Timer.badCharge] }

/-- The click handler of scenario B. -/
def handleGoodPay (s : State) : State :=
  let key := s.currentKey
  let s1 := addLog s "good" ("Checking Key: " ++ key ++ "...") "text-blue-400"
  if truthy (cacheGet s.goodCache key) then
    let s2 := addLog s1 "good" "Key Found! Returning cached response." "text-teal-400"
    { s2 with
      goodSuccess := true
      timers := s2.timers ++ [Timer.goodSuccessOff] }
  else
    let s2 := addLog s1 "good" "Key New. Locking & Processing..." "text-yellow-400"
    { s2 with
      goodCache := cachePut s2.goodCache key "PROCESSING"
      timers := s2.timers ++ [Timer.goodCharge key s.goodBalance] }

/-- The "Reset Simulation" handler; pending timeouts are not cleared. -/
def resetSim (s : State) (suffix : String) : State :=
  { s with
    badBalance := 1000
    goodBalance := 1000
    goodCache := []
    badLogs := [serverLogs]
    goodLogs := [serverLogs]
    badWarning := false
    goodSuccess := false
    badClickCount := 0
    currentKey := "key_" ++ suffix }

/-- Body of a timeout callback, run against the state in which it fires. -/
def runTimer (s : State) : Timer → State
  | .badClickDone => { s with badClickCount := s.badClickCount - 1 }
  | .badCharge =>
      addLog { s with badBalance := s.badBalance - 100 } "bad" "HTTP 200: Charged $100"
        "text-green-400"
  | .badWarningOff => { s with badWarning := false }
  | .goodSuccessOff => { s with goodSuccess := false }
  | .goodCharge key goodBalance =>
      if goodBalance >= 100 then
        addLog
          { s with
            goodBalance := s.goodBalance - 100
            goodCache := cachePut s.goodCache key "COMPLETED" }
          "good" "HTTP 200: Charged $100. Key Saved." "text-green-400"
      else s

/-- The pending timeout at position `i` fires: it leaves the queue and its body runs. -/
def fire (s : State) (i : Nat) : State :=
  match s.timers.get? i with
  | none => s
  | some t => runTimer { s with timers := s.timers.eraseIdx i } t

/-- The effect with dependency `[badClickCount]`, run after a render that follows the
state `old` and shows the state `new`. -/
def badClickEffect (old new : State) : State :=
  if new.badClickCount ≠ old.badClickCount ∧ new.badClickCount > 1 then
    { new with
      badWarning := true
      timers := new.timers ++ [Timer.badWarningOff] }
  else new

/-- What can happen to the simulation. -/
inductive Event where
  | badPay
  | goodPay
  | reset (suffix : String)
  | timeout (i : Nat)
deriving DecidableEq, Repr

/-- One event followed by the render and its effect. -/
def step (s : State) (e : Event) : State :=
  badClickEffect s
    (match e with
     | .badPay => handleBadPay s
     | .goodPay => handleGoodPay s
     | .reset suffix => resetSim s suffix
     | .timeout i => fire s i)

/-- A sequence of events, each observing the state left by the previous one. -/
def run (s : State) (es : List Event) : State :=
  es.foldl step s

/-- The state after `n` successive `handleGoodPay` clicks. -/
def goodClicks : Nat → State → State
  | 0, s => s
  | n + 1, s => goodClicks n (handleGoodPay s)

/-- Position of the first protected-charge callback at or after position `n`. -/
def firstChargeFrom (ts : List Timer) (n : Nat) : Option Nat :=
  ((ts.drop n).findIdx? Timer.isGoodCharge).map (fun i => n + i)

/-- Fires, oldest first, every protected-charge callback queued at or after
position `n`; `fuel` bounds the number of firings. -/
def fireChargesFrom (n : Nat) : Nat → State → State
  | 0, s => s
  | fuel + 1, s =>
      match firstChargeFrom s.timers n with
      | none => s
      | some i => fireChargesFrom n fuel (fire s i)

/-- Number of own properties of the cache whose value is `'COMPLETED'`. -/
def completedCount (c : Cache) : Nat :=
  c.countP (fun kv => kv.2 == "COMPLETED")

/-- The random suffixes drawn by the `resetSim` events of a trace, in order. -/
def drawnSuffixes : List Event → List String
  | [] => []
  | .reset suffix :: es => suffix :: drawnSuffixes es
  | _ :: es => drawnSuffixes es

/-- Keys captured by the protected-charge callbacks of a timeout queue. -/
def chargeKeys : List Timer → List String
  | [] => []
  | .goodCharge key _ :: ts => key :: chargeKeys ts
  | _ :: ts => chargeKeys ts

/-- Every value stored in the cache is one of the two literals the handlers write. -/
def StatusValues (c : Cache) : Prop :=
  ∀ kv ∈ c, kv.2 = "PROCESSING" ∨ kv.2 = "COMPLETED"

/-- What one `handleGoodPay` click produces for its caller: the log entries it appends,
the value of the `goodSuccess` banner after it, and the timeouts it schedules. -/
def goodPayOutput (s : State) : List LogEntry × Bool × List Timer :=
  ((handleGoodPay s).goodLogs.drop s.goodLogs.length,
   (handleGoodPay s).goodSuccess,
   (handleGoodPay s).timers.drop s.timers.length)

/-- The invariant of the protected scenario: cache keys are distinct, the balance is
1000 minus 100 per completed key, pending charge callbacks hold distinct keys none of
which is completed yet, and a pending charge for the current key means the key is
reserved. -/
def GoodInv (s : State) : Prop :=
  (s.goodCache.map Prod.fst).Nodup ∧
  s.goodBalance = 1000 - 100 * (completedCount s.goodCache : Int) ∧
  (chargeKeys s.timers).Nodup ∧
  (∀ k ∈ chargeKeys s.timers, cacheGet s.goodCache k ≠ some "COMPLETED") ∧
  (s.currentKey ∈ chargeKeys s.timers → truthy (cacheGet s.goodCache s.currentKey) = true)

/-- Ten clicks, each followed at once by `resetSim`, then the ten charge callbacks in
the order in which they were scheduled. -/
def drainEvents : List Event :=
  [Event.goodPay, Event.reset "b", Event.goodPay, Event.reset "c",
   Event.goodPay, Event.reset "d", Event.goodPay, Event.reset "e",
   Event.goodPay, Event.reset "f", Event.goodPay, Event.reset "g",
   Event.goodPay, Event.reset "h", Event.goodPay, Event.reset "i",
   Event.goodPay, Event.reset "j", Event.goodPay, Event.reset "k"]
  ++ List.replicate 10 (Event.timeout 0)

/-- Recognises the 1500 ms callbacks scheduled by `handleBadPay`. -/
def Timer.isBadCharge : Timer → Bool
  | .badCharge => true
  | _ => false

/-- The state after `n` successive `handleBadPay` clicks. -/
def badClicks : Nat → State → State
  | 0, s => s
  | n + 1, s => badClicks n (handleBadPay s)

/-- Position of the first unprotected-charge callback at or after position `n`. -/
def firstBadChargeFrom (ts : List Timer) (n : Nat) : Option Nat :=
  ((ts.drop n).findIdx? Timer.isBadCharge).map (fun i => n + i)

/-- Fires, oldest first, every unprotected-charge callback queued at or after
position `n`; `fuel` bounds the number of firings. -/
def fireBadChargesFrom (n : Nat) : Nat → State → State
  | 0, s => s
  | fuel + 1, s =>
      match firstBadChargeFrom s.timers n with
      | none => s
      | some i => fireBadChargesFrom n fuel (fire s i)

/-- Recognises the `resetSim` events. -/
def Event.isReset : Event → Bool
  | .reset _ => true
  | _ => false

/-- The click handler of scenario B as a closure of the render `render`, invoked when
the state is `s`: `goodCache` and `goodBalance` are the constants of that render, the
ref `currentKey.current` is read at the call, and the functional updates
(`setGoodLogs`, `setGoodCache`) and the new timeout apply to `s`.  A click that observes
the state left by the previous event is `handleGoodPayFrom s s`. -/
def handleGoodPayFrom (render s : State) : State :=
  let key := s.currentKey
  let s1 := addLog s "good" ("Checking Key: " ++ key ++ "...") "text-blue-400"
  if truthy (cacheGet render.goodCache key) then
    let s2 := addLog s1 "good" "Key Found! Returning cached response." "text-teal-400"
    { s2 with
      goodSuccess := true
      timers := s2.timers ++ [Timer.goodSuccessOff] }
  else
    let s2 := addLog s1 "good" "Key New. Locking & Processing..." "text-yellow-400"
    { s2 with
      goodCache := cachePut s2.goodCache key "PROCESSING"
      timers := s2.timers ++ [Timer.goodCharge key render.goodBalance] }

/-- Eleven `handleBadPay` clicks before any callback fires, then the first ten charge
callbacks in the order in which they were scheduled. -/
def badDrainEvents : List Event :=
  List.replicate 11 Event.badPay ++
  [Event.timeout 1, Event.timeout 2, Event.timeout 4, Event.timeout 6, Event.timeout 8,
   Event.timeout 10, Event.timeout 12, Event.timeout 14, Event.timeout 16,
   Event.timeout 18]

/-- The events of `badDrainEvents` followed by the eleventh charge callback. -/
def badOverdrawEvents : List Event :=
  badDrainEvents ++ [Event.timeout 20]

/-- Eleven protected clicks, each followed at once by `resetSim`, then the eleven charge
callbacks in the order in which they were scheduled. -/
def goodOverdrawEvents : List Event :=
  [Event.goodPay, Event.reset "z"] ++ drainEvents ++ [Event.timeout 0]

/-- The log entry written by the unprotected click. -/
def badRequestEntry : LogEntry :=
  { msg := "Request POST /charge initiated...", color := "text-yellow-400" }

/-- The log entry written by the unprotected charge callback. -/
def badChargedEntry : LogEntry :=
  { msg := "HTTP 200: Charged $100", color := "text-green-400" }

/-- The first log entry of every protected click. -/
def checkingEntry (key : String) : LogEntry :=
  { msg := "Checking Key: " ++ key ++ "...", color := "text-blue-400" }

/-- The second log entry of a protected click on a key that has an entry. -/
def keyFoundEntry : LogEntry :=
  { msg := "Key Found! Returning cached response.", color := "text-teal-400" }

/-- The second log entry of a protected click on a key without entry. -/
def keyNewEntry : LogEntry :=
  { msg := "Key New. Locking & Processing...", color := "text-yellow-400" }

/-- The log entry written by the protected charge callback. -/
def goodChargedEntry : LogEntry :=
  { msg := "HTTP 200: Charged $100. Key Saved.", color := "text-green-400" }

/-- The invariant of an execution without `resetSim`, for the one key `key`: either
nothing is reserved, or the key is being processed with its charge callback pending, or
the key is completed and the wallet charged once. -/
def SingleKeyInv (key : String) (s : State) : Prop :=
  s.currentKey = key ∧
  ((s.goodCache = [] ∧ s.goodBalance = 1000 ∧
      s.timers.filter Timer.isGoodCharge = []) ∨
   (s.goodCache = [(key, "PROCESSING")] ∧ s.goodBalance = 1000 ∧
      s.timers.filter Timer.isGoodCharge = [Timer.goodCharge key 1000]) ∨
   (s.goodCache = [(key, "COMPLETED")] ∧ s.goodBalance = 900 ∧
      s.timers.filter Timer.isGoodCharge = []))

/-- The handler part of `step`, before the render effect. -/
def handleEvent (s : State) : Event → State
  | .badPay => handleBadPay s
  | .goodPay => handleGoodPay s
  | .reset suffix => resetSim s suffix
  | .timeout i => fire s i

/-- Recognises the 2000 ms callbacks scheduled by `handleBadPay`. -/
def Timer.isBadClickDone : Timer → Bool
  | .badClickDone => true
  | _ => false

/-- Number of accepted `handleBadPay` clicks (made with `badBalance >= 100`) in the
execution of `es` from `s`. -/
def acceptedBadClicks : State → List Event → Nat
  | _, [] => 0
  | s, e :: es =>
      (if e = Event.badPay ∧ 100 ≤ s.badBalance then 1 else 0)
        + acceptedBadClicks (step s e) es

/-- Number of 2000 ms callbacks of `handleBadPay` that fire in the execution of `es`
from `s`. -/
def firedBadClickDone : State → List Event → Nat
  | _, [] => 0
  | s, Event.timeout i :: es =>
      (if s.timers.get? i = some Timer.badClickDone then 1 else 0)
        + firedBadClickDone (step s (Event.timeout i)) es
  | s, e :: es => firedBadClickDone (step s e) es

end Idempotency

/-!
# The design walk-through of `src/pages/LowLevelDesign.jsx`

The two list-valued state cells and their handlers.  A handler reads the list of the
latest render and stores a new list, so a call is a function from list to list.
-/

namespace LowLevelDesign

/-- The click handler of a requirement chip, on the value of `requirementsCollected`;
ids are the numeric `id` fields of `contentData.requirements.hidden`. -/
def revealAnswer (requirementsCollected : List Nat) (id : Nat) : List Nat :=
  if requirementsCollected.contains id then requirementsCollected
  else requirementsCollected ++ [id]

/-- The click handler of an entity button, on the value of `selectedEntities`. -/
def toggleEntity (selectedEntities : List String) (name : String) (isCorrect : Bool) :
    List String :=
  if selectedEntities.contains name then selectedEntities.filter (fun e => e != name)
  else if isCorrect then selectedEntities ++ [name]
  else selectedEntities

/-- A sequence of `toggleEntity(name, isCorrect)` calls, each on the list left by the
previous one. -/
def toggleAll (selectedEntities : List String) (calls : List (String × Bool)) :
    List String :=
  calls.foldl (fun acc c => toggleEntity acc c.1 c.2) selectedEntities

/-- The `name` and `correct` fields of `contentData.entities`. -/
def entities : List (String × Bool) :=
  [("ParkingLot", true), ("Vehicle", true), ("ParkingSpot", true), ("Ticket", true),
   ("Database", false), ("PaymentStrategy", true), ("UserInterface", false),
   ("Gate", true)]

end LowLevelDesign

namespace Idempotency

/-! ## Lemmas on the cache, the handlers and the timeout queue -/

theorem cacheGet_cachePut_self (c : Cache) (k v : String) :
    cacheGet (cachePut c k v) k = some v := by
  induction c with
  | nil => simp [cachePut, cacheGet]
  | cons kv rest ih =>
      obtain ⟨k1, v1⟩ := kv
      by_cases h : k1 = k
      · simp [cachePut, cacheGet, h]
      · simp [cachePut, cacheGet, h, ih]

theorem cacheGet_cachePut_of_ne (c : Cache) (k v k2 : String) (h : k2 ≠ k) :
    cacheGet (cachePut c k v) k2 = cacheGet c k2 := by
  induction c with
  | nil => simp [cachePut, cacheGet, h.symm]
  | cons kv rest ih =>
      obtain ⟨k1, v1⟩ := kv
      by_cases h1 : k1 = k
      · subst h1
        simp [cachePut, cacheGet, h.symm]
      · by_cases h2 : k1 = k2
        · subst h2
          simp [cachePut, cacheGet, h1]
        · simp [cachePut, cacheGet, h1, h2, ih]

theorem handleGoodPay_found (s : State) (h : truthy (cacheGet s.goodCache s.currentKey) = true) :
    handleGoodPay s =
      { s with
        goodLogs := s.goodLogs ++
          [{ msg := "Checking Key: " ++ s.currentKey ++ "...", color := "text-blue-400" },
           { msg := "Key Found! Returning cached response.", color := "text-teal-400" }]
        goodSuccess := true
        timers := s.timers ++ [Timer.goodSuccessOff] } := by
  simp [handleGoodPay, addLog, h]

theorem handleGoodPay_new (s : State) (h : truthy (cacheGet s.goodCache s.currentKey) = false) :
    handleGoodPay s =
      { s with
        goodLogs := s.goodLogs ++
          [{ msg := "Checking Key: " ++ s.currentKey ++ "...", color := "text-blue-400" },
           { msg := "Key New. Locking & Processing...", color := "text-yellow-400" }]
        goodCache := cachePut s.goodCache s.currentKey "PROCESSING"
        timers := s.timers ++ [Timer.goodCharge s.currentKey s.goodBalance] } := by
  simp [handleGoodPay, addLog, h]

theorem goodClicks_found (n : Nat) (s : State)
    (h : truthy (cacheGet s.goodCache s.currentKey) = true) :
    (goodClicks n s).goodBalance = s.goodBalance ∧
    (goodClicks n s).goodCache = s.goodCache ∧
    (goodClicks n s).currentKey = s.currentKey ∧
    (goodClicks n s).timers = s.timers ++ List.replicate n Timer.goodSuccessOff := by
  induction n generalizing s with
  | zero => simp [goodClicks]
  | succ n ih =>
      have hs := handleGoodPay_found s h
      have h2 : truthy (cacheGet (handleGoodPay s).goodCache (handleGoodPay s).currentKey) = true := by
        rw [hs]; exact h
      obtain ⟨a, b, c, d⟩ := ih (handleGoodPay s) h2
      simp only [goodClicks]
      rw [a, b, c, d, hs]
      simp [List.replicate_succ]

theorem firstChargeFrom_append_charge (ts rest : List Timer) (k : String) (b : Int) :
    firstChargeFrom (ts ++ Timer.goodCharge k b :: rest) ts.length = some ts.length := by
  simp [firstChargeFrom, List.findIdx?_cons, Timer.isGoodCharge]

theorem firstChargeFrom_append_replicate (ts : List Timer) (n : Nat) :
    firstChargeFrom (ts ++ List.replicate n Timer.goodSuccessOff) ts.length = none := by
  simp [firstChargeFrom, List.findIdx?_replicate, Timer.isGoodCharge]

theorem fire_append_charge (s : State) (ts rest : List Timer) (k : String) (b : Int)
    (h : s.timers = ts ++ Timer.goodCharge k b :: rest) :
    fire s ts.length = runTimer { s with timers := ts ++ rest } (Timer.goodCharge k b) := by
  have hget : (ts ++ Timer.goodCharge k b :: rest).get? ts.length
      = some (Timer.goodCharge k b) := by
    rw [List.get?_eq_getElem?, List.getElem?_append_right (le_refl _)]
    simp
  have herase : (ts ++ Timer.goodCharge k b :: rest).eraseIdx ts.length = ts ++ rest := by
    simp [List.eraseIdx_append_of_length_le]
  unfold fire
  rw [h, hget, herase]

theorem fireChargesFrom_of_none (n fuel : Nat) (s : State)
    (h : firstChargeFrom s.timers n = none) : fireChargesFrom n fuel s = s := by
  cases fuel with
  | zero => rfl
  | succ m => simp [fireChargesFrom, h]

theorem fireChargesFrom_of_some (n fuel i : Nat) (s : State)
    (h : firstChargeFrom s.timers n = some i) :
    fireChargesFrom n (fuel + 1) s = fireChargesFrom n fuel (fire s i) := by
  simp [fireChargesFrom, h]

theorem truthy_of_status (v : String) (h : v = "PROCESSING" ∨ v = "COMPLETED") :
    truthy (some v) = true := by
  rcases h with rfl | rfl <;> decide

theorem statusValues_cachePut (c : Cache) (k v : String) (hc : StatusValues c)
    (hv : v = "PROCESSING" ∨ v = "COMPLETED") : StatusValues (cachePut c k v) := by
  induction c with
  | nil =>
      intro kv hkv
      simp only [cachePut, List.mem_singleton] at hkv
      subst hkv
      exact hv
  | cons kv rest ih =>
      obtain ⟨k1, v1⟩ := kv
      have hrest : StatusValues rest := fun x hx => hc x (List.mem_cons_of_mem _ hx)
      intro x hx
      by_cases h : k1 = k
      · simp only [cachePut, h, if_true, List.mem_cons] at hx
        rcases hx with rfl | hx
        · exact hv
        · exact hrest x hx
      · simp only [cachePut, h, if_false, List.mem_cons] at hx
        rcases hx with rfl | hx
        · exact hc _ (List.mem_cons_self _ _)
        · exact ih hrest x hx

theorem cacheGet_statusValues (c : Cache) (k v : String) (hc : StatusValues c)
    (h : cacheGet c k = some v) : v = "PROCESSING" ∨ v = "COMPLETED" := by
  induction c with
  | nil => simp [cacheGet] at h
  | cons kv rest ih =>
      obtain ⟨k1, v1⟩ := kv
      by_cases h1 : k1 = k
      · simp only [cacheGet, h1, if_true, Option.some.injEq] at h
        subst h
        exact hc (k1, v1) (List.mem_cons_self _ _)
      · simp only [cacheGet, h1, if_false] at h
        exact ih (fun x hx => hc x (List.mem_cons_of_mem _ hx)) h

theorem badClickEffect_goodCache (old new : State) :
    (badClickEffect old new).goodCache = new.goodCache := by
  unfold badClickEffect; split <;> rfl

theorem badClickEffect_goodBalance (old new : State) :
    (badClickEffect old new).goodBalance = new.goodBalance := by
  unfold badClickEffect; split <;> rfl

theorem badClickEffect_currentKey (old new : State) :
    (badClickEffect old new).currentKey = new.currentKey := by
  unfold badClickEffect; split <;> rfl

theorem handleBadPay_goodCache (s : State) : (handleBadPay s).goodCache = s.goodCache := by
  unfold handleBadPay; split <;> simp [addLog]

theorem statusValues_handleGoodPay (s : State) (h : StatusValues s.goodCache) :
    StatusValues (handleGoodPay s).goodCache := by
  cases ht : truthy (cacheGet s.goodCache s.currentKey) with
  | true => rw [handleGoodPay_found s ht]; exact h
  | false =>
      rw [handleGoodPay_new s ht]
      exact statusValues_cachePut _ _ _ h (Or.inl rfl)

theorem statusValues_runTimer (s : State) (t : Timer) (h : StatusValues s.goodCache) :
    StatusValues (runTimer s t).goodCache := by
  cases t with
  | goodCharge key b =>
      by_cases hb : 100 ≤ b
      · simp only [runTimer, ge_iff_le, hb, if_true, addLog]
        exact statusValues_cachePut _ _ _ h (Or.inr rfl)
      · simp only [runTimer, ge_iff_le, hb, if_false]
        exact h
  | badCharge => simpa [runTimer, addLog] using h
  | _ => exact h

theorem statusValues_fire (s : State) (i : Nat) (h : StatusValues s.goodCache) :
    StatusValues (fire s i).goodCache := by
  unfold fire
  split
  · exact h
  · exact statusValues_runTimer _ _ h

theorem statusValues_step (s : State) (e : Event) (h : StatusValues s.goodCache) :
    StatusValues (step s e).goodCache := by
  unfold step
  rw [badClickEffect_goodCache]
  cases e with
  | badPay => simpa [handleBadPay_goodCache] using h
  | goodPay => exact statusValues_handleGoodPay s h
  | reset suffix => intro kv hkv; simp [resetSim] at hkv
  | timeout i => exact statusValues_fire s i h

theorem statusValues_run (s : State) (es : List Event) (h : StatusValues s.goodCache) :
    StatusValues (run s es).goodCache := by
  induction es generalizing s with
  | nil => exact h
  | cons e es ih => exact ih (step s e) (statusValues_step s e h)

theorem statusValues_init (k0 : String) : StatusValues (init k0).goodCache := by
  intro kv hkv; simp [init] at hkv

theorem cacheGet_handleGoodPay_change (s : State) (k : String)
    (hs : StatusValues s.goodCache)
    (h : cacheGet (handleGoodPay s).goodCache k ≠ cacheGet s.goodCache k) :
    cacheGet s.goodCache k = none ∧
      cacheGet (handleGoodPay s).goodCache k = some "PROCESSING" := by
  cases ht : truthy (cacheGet s.goodCache s.currentKey) with
  | true => rw [handleGoodPay_found s ht] at h; exact absurd rfl h
  | false =>
      rw [handleGoodPay_new s ht] at h ⊢
      by_cases hk : k = s.currentKey
      · subst hk
        refine ⟨?_, cacheGet_cachePut_self _ _ _⟩
        cases hg : cacheGet s.goodCache s.currentKey with
        | none => rfl
        | some v =>
            rw [hg, truthy_of_status v (cacheGet_statusValues _ _ _ hs hg)] at ht
            exact absurd ht (by decide)
      · exact absurd (cacheGet_cachePut_of_ne _ _ _ _ hk) h

theorem cacheGet_fire_change (s : State) (i : Nat) (k : String)
    (hs : StatusValues s.goodCache)
    (h : cacheGet (fire s i).goodCache k ≠ cacheGet s.goodCache k) :
    cacheGet (fire s i).goodCache k = some "COMPLETED" ∧
      (cacheGet s.goodCache k = some "PROCESSING" ∨ cacheGet s.goodCache k = none) := by
  unfold fire at h ⊢
  cases hg : s.timers.get? i with
  | none => rw [hg] at h; exact absurd rfl h
  | some t =>
      rw [hg] at h
      simp only at h ⊢
      cases t with
      | goodCharge key b =>
          by_cases hb : 100 ≤ b
          · simp only [runTimer, ge_iff_le, hb, if_true, addLog] at h ⊢
            simp only [if_neg (by decide : ¬ ("good" = "bad"))] at h ⊢
            by_cases hk : k = key
            · subst hk
              refine ⟨cacheGet_cachePut_self _ _ _, ?_⟩
              rw [cacheGet_cachePut_self] at h
              cases hc : cacheGet s.goodCache k with
              | none => exact Or.inr rfl
              | some v =>
                  rcases cacheGet_statusValues _ _ _ hs hc with rfl | rfl
                  · exact Or.inl rfl
                  · rw [hc] at h; exact absurd rfl h
            · exact absurd (cacheGet_cachePut_of_ne _ _ _ _ hk) h
          · simp only [runTimer, ge_iff_le, hb, if_false] at h
            exact absurd rfl h
      | badCharge => simp [runTimer, addLog] at h
      | badClickDone => exact absurd rfl h
      | badWarningOff => exact absurd rfl h
      | goodSuccessOff => exact absurd rfl h

theorem key_inj (a b : String) (h : "key_" ++ a = "key_" ++ b) : a = b := by
  have h2 := congrArg String.data h
  rw [String.data_append, String.data_append] at h2
  exact String.ext (List.append_cancel_left h2)

theorem mem_keys_cachePut (c : Cache) (k v k2 : String) :
    k2 ∈ (cachePut c k v).map Prod.fst ↔ k2 = k ∨ k2 ∈ c.map Prod.fst := by
  induction c with
  | nil => simp [cachePut]
  | cons kv rest ih =>
      obtain ⟨k1, v1⟩ := kv
      by_cases h : k1 = k
      · subst h
        simp [cachePut]
      · simp only [cachePut, h, if_false, List.map_cons, List.mem_cons, ih]
        tauto

theorem nodup_keys_cachePut (c : Cache) (k v : String) (h : (c.map Prod.fst).Nodup) :
    ((cachePut c k v).map Prod.fst).Nodup := by
  induction c with
  | nil => simp [cachePut]
  | cons kv rest ih =>
      obtain ⟨k1, v1⟩ := kv
      simp only [List.map_cons, List.nodup_cons] at h
      by_cases h1 : k1 = k
      · subst h1
        simpa [cachePut] using h
      · simp only [cachePut, h1, if_false, List.map_cons, List.nodup_cons]
        refine ⟨?_, ih h.2⟩
        rw [mem_keys_cachePut]
        rintro (hm | hm)
        · exact h1 hm
        · exact h.1 hm

theorem completedCount_cachePut (c : Cache) (k v : String) :
    completedCount (cachePut c k v) + (if cacheGet c k = some "COMPLETED" then 1 else 0)
      = completedCount c + (if v = "COMPLETED" then 1 else 0) := by
  induction c with
  | nil => simp [cachePut, cacheGet, completedCount, List.countP_cons]
  | cons kv rest ih =>
      obtain ⟨k1, v1⟩ := kv
      by_cases h1 : k1 = k
      · subst h1
        simp only [cachePut, cacheGet, if_true, completedCount, List.countP_cons,
          Option.some.injEq, beq_iff_eq]
        omega
      · simp only [cachePut, cacheGet, h1, if_false, completedCount, List.countP_cons,
          beq_iff_eq] at ih ⊢
        omega

theorem chargeKeys_append (ts us : List Timer) :
    chargeKeys (ts ++ us) = chargeKeys ts ++ chargeKeys us := by
  induction ts with
  | nil => rfl
  | cons t ts ih => cases t <;> simp [chargeKeys, ih]

theorem chargeKeys_eraseIdx_charge (ts : List Timer) (i : Nat) (k : String) (b : Int)
    (h : ts.get? i = some (Timer.goodCharge k b)) :
    (chargeKeys ts).Perm (k :: chargeKeys (ts.eraseIdx i)) := by
  induction ts generalizing i with
  | nil => simp at h
  | cons t ts ih =>
      cases i with
      | zero =>
          simp only [List.get?_cons_zero, Option.some.injEq] at h
          subst h
          simp [chargeKeys]
      | succ j =>
          simp only [List.get?_cons_succ] at h
          have := ih j h
          cases t with
          | goodCharge k2 b2 =>
              simp only [chargeKeys, List.eraseIdx_cons_succ]
              exact (List.Perm.cons k2 this).trans (List.Perm.swap k k2 _)
          | _ => simpa [chargeKeys] using this

theorem chargeKeys_eraseIdx_other (ts : List Timer) (i : Nat) (t : Timer)
    (h : ts.get? i = some t) (ht : t.isGoodCharge = false) :
    chargeKeys (ts.eraseIdx i) = chargeKeys ts := by
  induction ts generalizing i with
  | nil => simp at h
  | cons u ts ih =>
      cases i with
      | zero =>
          simp only [List.get?_cons_zero, Option.some.injEq] at h
          subst h
          cases u <;> simp_all [chargeKeys, Timer.isGoodCharge]
      | succ j =>
          simp only [List.get?_cons_succ] at h
          have := ih j h
          cases u <;> simp [chargeKeys, this]

theorem badClickEffect_chargeKeys (old new : State) :
    chargeKeys (badClickEffect old new).timers = chargeKeys new.timers := by
  unfold badClickEffect
  split
  · simp [chargeKeys_append, chargeKeys]
  · rfl

theorem goodInv_badClickEffect (old new : State) (h : GoodInv new) :
    GoodInv (badClickEffect old new) := by
  unfold GoodInv
  rw [badClickEffect_chargeKeys, badClickEffect_goodCache, badClickEffect_goodBalance,
    badClickEffect_currentKey]
  exact h

theorem goodInv_handleBadPay (s : State) (h : GoodInv s) : GoodInv (handleBadPay s) := by
  unfold handleBadPay
  split
  · exact h
  · simpa [GoodInv, addLog, chargeKeys_append, chargeKeys] using h

theorem goodInv_handleGoodPay (s : State) (h : GoodInv s) : GoodInv (handleGoodPay s) := by
  obtain ⟨h1, h2, h3, h4, h5⟩ := h
  cases ht : truthy (cacheGet s.goodCache s.currentKey) with
  | true =>
      rw [handleGoodPay_found s ht]
      simpa [GoodInv, chargeKeys_append, chargeKeys] using ⟨h1, h2, h3, h4, h5⟩
  | false =>
      rw [handleGoodPay_new s ht]
      have hnot : s.currentKey ∉ chargeKeys s.timers := fun hm => by
        rw [h5 hm] at ht; exact absurd ht (by decide)
      have hnc : cacheGet s.goodCache s.currentKey ≠ some "COMPLETED" := fun hc => by
        rw [hc] at ht; exact absurd ht (by decide)
      have hcount := completedCount_cachePut s.goodCache s.currentKey "PROCESSING"
      rw [if_neg hnc, if_neg (by decide)] at hcount
      simp only [Nat.add_zero] at hcount
      refine ⟨nodup_keys_cachePut _ _ _ h1, ?_, ?_, ?_, ?_⟩
      · simp only [hcount]; exact h2
      · simp only [chargeKeys_append, chargeKeys, List.append_nil]
        exact List.Nodup.append h3 (List.nodup_singleton _) (by simpa using hnot)
      · intro k hk
        simp only [chargeKeys_append, chargeKeys, List.mem_append, List.mem_singleton] at hk
        by_cases hkk : k = s.currentKey
        · subst hkk
          simp [cacheGet_cachePut_self]
        · simp only [cacheGet_cachePut_of_ne _ _ _ _ hkk]
          exact h4 k (hk.resolve_right hkk)
      · intro _
        simp [cacheGet_cachePut_self, truthy]

theorem goodInv_resetSim (s : State) (suffix : String) (h : GoodInv s)
    (hfresh : "key_" ++ suffix ∉ chargeKeys s.timers) : GoodInv (resetSim s suffix) := by
  obtain ⟨_, _, h3, _, _⟩ := h
  refine ⟨by simp [resetSim], by simp [resetSim, completedCount], h3, ?_, ?_⟩
  · intro k _
    simp [resetSim, cacheGet]
  · intro hm
    exact absurd hm hfresh

theorem truthy_cachePut_of_truthy (c : Cache) (k v k2 : String) (hv : truthy (some v) = true)
    (h : truthy (cacheGet c k2) = true) : truthy (cacheGet (cachePut c k v) k2) = true := by
  by_cases hk : k2 = k
  · subst hk; rw [cacheGet_cachePut_self]; exact hv
  · rw [cacheGet_cachePut_of_ne _ _ _ _ hk]; exact h

theorem goodInv_fire (s : State) (i : Nat) (h : GoodInv s) : GoodInv (fire s i) := by
  obtain ⟨h1, h2, h3, h4, h5⟩ := h
  unfold fire
  cases hg : s.timers.get? i with
  | none => exact ⟨h1, h2, h3, h4, h5⟩
  | some t =>
      simp only
      cases t with
      | goodCharge key b =>
          have hperm := chargeKeys_eraseIdx_charge _ _ _ _ hg
          have hnd := (hperm.nodup_iff).mp h3
          rw [List.nodup_cons] at hnd
          have hsub : ∀ k, k ∈ chargeKeys (s.timers.eraseIdx i) → k ∈ chargeKeys s.timers :=
            fun k hk => hperm.symm.subset (List.mem_cons_of_mem _ hk)
          by_cases hb : 100 ≤ b
          · have hopen := h4 key (hperm.symm.subset (List.mem_cons_self _ _))
            have hcount := completedCount_cachePut s.goodCache key "COMPLETED"
            rw [if_neg hopen, if_pos rfl] at hcount
            simp only [Nat.add_zero] at hcount
            simp only [runTimer, ge_iff_le, hb, if_true, addLog,
              if_neg (by decide : ¬ ("good" = "bad"))]
            refine ⟨nodup_keys_cachePut _ _ _ h1, ?_, hnd.2, ?_, ?_⟩
            · simp only [hcount, h2]; push_cast; ring
            · intro k hk
              have hne : k ≠ key := fun e => hnd.1 (e ▸ hk)
              simp only [cacheGet_cachePut_of_ne _ _ _ _ hne]
              exact h4 k (hsub k hk)
            · intro hm
              exact truthy_cachePut_of_truthy _ _ _ _ (by decide) (h5 (hsub _ hm))
          · simp only [runTimer, ge_iff_le, hb, if_false]
            exact ⟨h1, h2, hnd.2, fun k hk => h4 k (hsub k hk), fun hm => h5 (hsub _ hm)⟩
      | badCharge =>
          have he := chargeKeys_eraseIdx_other _ _ _ hg rfl
          simpa [GoodInv, runTimer, addLog, he] using ⟨h1, h2, h3, h4, h5⟩
      | badClickDone =>
          have he := chargeKeys_eraseIdx_other _ _ _ hg rfl
          simpa [GoodInv, runTimer, he] using ⟨h1, h2, h3, h4, h5⟩
      | badWarningOff =>
          have he := chargeKeys_eraseIdx_other _ _ _ hg rfl
          simpa [GoodInv, runTimer, he] using ⟨h1, h2, h3, h4, h5⟩
      | goodSuccessOff =>
          have he := chargeKeys_eraseIdx_other _ _ _ hg rfl
          simpa [GoodInv, runTimer, he] using ⟨h1, h2, h3, h4, h5⟩

theorem goodInv_init (k0 : String) : GoodInv (init k0) := by
  simp [GoodInv, init, completedCount, chargeKeys]

theorem chargeKeys_handleGoodPay (s : State) (k : String)
    (h : k ∈ chargeKeys (handleGoodPay s).timers) :
    k = s.currentKey ∨ k ∈ chargeKeys s.timers := by
  cases ht : truthy (cacheGet s.goodCache s.currentKey) with
  | true =>
      rw [handleGoodPay_found s ht] at h
      simp only [chargeKeys_append, chargeKeys, List.append_nil] at h
      exact Or.inr h
  | false =>
      rw [handleGoodPay_new s ht] at h
      simp only [chargeKeys_append, chargeKeys, List.mem_append, List.mem_singleton] at h
      exact h.symm

theorem chargeKeys_runTimer (s : State) (t : Timer) :
    chargeKeys (runTimer s t).timers = chargeKeys s.timers := by
  cases t with
  | goodCharge key b => simp only [runTimer]; split <;> simp [addLog]
  | badCharge => simp [runTimer, addLog]
  | _ => rfl

theorem currentKey_runTimer (s : State) (t : Timer) :
    (runTimer s t).currentKey = s.currentKey := by
  cases t with
  | goodCharge key b => simp only [runTimer]; split <;> simp [addLog]
  | badCharge => simp [runTimer, addLog]
  | _ => rfl

theorem chargeKeys_eraseIdx_subset (ts : List Timer) (i : Nat) (k : String)
    (h : k ∈ chargeKeys (ts.eraseIdx i)) : k ∈ chargeKeys ts := by
  cases hg : ts.get? i with
  | none =>
      rw [List.get?_eq_none] at hg
      rwa [List.eraseIdx_of_length_le hg] at h
  | some t =>
      cases ht : t.isGoodCharge with
      | false => rwa [chargeKeys_eraseIdx_other _ _ _ hg ht] at h
      | true =>
          cases t with
          | goodCharge key b =>
              exact (chargeKeys_eraseIdx_charge _ _ _ _ hg).symm.subset
                (List.mem_cons_of_mem _ h)
          | _ => simp [Timer.isGoodCharge] at ht

theorem chargeKeys_fire (s : State) (i : Nat) (k : String)
    (h : k ∈ chargeKeys (fire s i).timers) : k ∈ chargeKeys s.timers := by
  unfold fire at h
  split at h
  · exact h
  · rw [chargeKeys_runTimer] at h
    exact chargeKeys_eraseIdx_subset _ _ _ h

theorem currentKey_fire (s : State) (i : Nat) : (fire s i).currentKey = s.currentKey := by
  unfold fire
  split
  · rfl
  · rw [currentKey_runTimer]

theorem currentKey_handleGoodPay (s : State) :
    (handleGoodPay s).currentKey = s.currentKey := by
  cases ht : truthy (cacheGet s.goodCache s.currentKey) with
  | true => rw [handleGoodPay_found s ht]
  | false => rw [handleGoodPay_new s ht]

theorem currentKey_handleBadPay (s : State) :
    (handleBadPay s).currentKey = s.currentKey := by
  unfold handleBadPay; split <;> simp [addLog]

theorem chargeKeys_handleBadPay (s : State) :
    chargeKeys (handleBadPay s).timers = chargeKeys s.timers := by
  unfold handleBadPay; split <;> simp [addLog, chargeKeys_append, chargeKeys]

theorem goodInv_run (es : List Event) (s : State) (h : GoodInv s)
    (hnd : (drawnSuffixes es).Nodup)
    (hfresh : ∀ x ∈ drawnSuffixes es,
      "key_" ++ x ≠ s.currentKey ∧ "key_" ++ x ∉ chargeKeys s.timers) :
    GoodInv (run s es) := by
  induction es generalizing s with
  | nil => exact h
  | cons e es ih =>
      show GoodInv (run (step s e) es)
      cases e with
      | badPay =>
          apply ih _ (goodInv_badClickEffect _ _ (goodInv_handleBadPay s h)) hnd
          intro x hx
          simp only [step, badClickEffect_currentKey, badClickEffect_chargeKeys,
            currentKey_handleBadPay, chargeKeys_handleBadPay]
          exact hfresh x hx
      | goodPay =>
          apply ih _ (goodInv_badClickEffect _ _ (goodInv_handleGoodPay s h)) hnd
          intro x hx
          simp only [step, badClickEffect_currentKey, badClickEffect_chargeKeys,
            currentKey_handleGoodPay]
          refine ⟨(hfresh x hx).1, fun hm => ?_⟩
          rcases chargeKeys_handleGoodPay s _ hm with h1 | h1
          · exact (hfresh x hx).1 h1
          · exact (hfresh x hx).2 h1
      | timeout i =>
          apply ih _ (goodInv_badClickEffect _ _ (goodInv_fire s i h)) hnd
          intro x hx
          simp only [step, badClickEffect_currentKey, badClickEffect_chargeKeys,
            currentKey_fire]
          exact ⟨(hfresh x hx).1, fun hm => (hfresh x hx).2 (chargeKeys_fire s i _ hm)⟩
      | reset suffix =>
          simp only [drawnSuffixes, List.nodup_cons] at hnd
          have hf := hfresh suffix (by simp [drawnSuffixes])
          apply ih _ (goodInv_badClickEffect _ _ (goodInv_resetSim s suffix h hf.2)) hnd.2
          intro x hx
          simp only [step, badClickEffect_currentKey, badClickEffect_chargeKeys]
          have hx2 := hfresh x (by simp [drawnSuffixes, hx])
          refine ⟨fun he => ?_, hx2.2⟩
          have : x = suffix := key_inj _ _ he
          exact hnd.1 (this ▸ hx)

theorem handleBadPay_accept (s : State) (h : 100 ≤ s.badBalance) :
    handleBadPay s =
      { s with
        badLogs := s.badLogs ++ [badRequestEntry]
        badClickCount := s.badClickCount + 1
        timers := s.timers ++ [Timer.badClickDone, Timer.badCharge] } := by
  simp [handleBadPay, addLog, not_lt.mpr h, badRequestEntry]

theorem handleBadPay_reject (s : State) (h : s.badBalance < 100) : handleBadPay s = s := by
  simp [handleBadPay, h]

theorem badClicks_accept (n : Nat) (s : State) (h : 100 ≤ s.badBalance) :
    badClicks n s =
      { s with
        badLogs := s.badLogs ++ List.replicate n badRequestEntry
        badClickCount := s.badClickCount + n
        timers := s.timers ++
          (List.replicate n [Timer.badClickDone, Timer.badCharge]).flatten } := by
  induction n generalizing s with
  | zero => simp [badClicks]
  | succ n ih =>
      have hs := handleBadPay_accept s h
      rw [badClicks, ih (handleBadPay s) (by rw [hs]; exact h), hs]
      simp [List.replicate_succ, add_assoc, add_comm 1 (n : Int)]

theorem findIdx?_isBadCharge_none (mid : List Timer)
    (h : ∀ x ∈ mid, Timer.isBadCharge x = false) :
    List.findIdx? Timer.isBadCharge mid = none := by
  rw [List.findIdx?_eq_none_iff]
  exact h

theorem findIdx?_isBadCharge_append (mid rest : List Timer)
    (h : ∀ x ∈ mid, Timer.isBadCharge x = false) :
    List.findIdx? Timer.isBadCharge (mid ++ Timer.badCharge :: rest) = some mid.length := by
  rw [List.findIdx?_append, findIdx?_isBadCharge_none mid h]
  simp [List.findIdx?_cons, Timer.isBadCharge]

theorem firstBadChargeFrom_none (pre mid : List Timer)
    (h : ∀ x ∈ mid, Timer.isBadCharge x = false) :
    firstBadChargeFrom (pre ++ mid) pre.length = none := by
  simp [firstBadChargeFrom, findIdx?_isBadCharge_none mid h]

theorem firstBadChargeFrom_some (pre mid rest : List Timer)
    (h : ∀ x ∈ mid, Timer.isBadCharge x = false) :
    firstBadChargeFrom (pre ++ (mid ++ Timer.badCharge :: rest)) pre.length
      = some (pre.length + mid.length) := by
  simp [firstBadChargeFrom, findIdx?_isBadCharge_append mid rest h]

theorem fire_badCharge (s : State) (ts rest : List Timer)
    (h : s.timers = ts ++ Timer.badCharge :: rest) :
    fire s ts.length =
      { s with
        timers := ts ++ rest
        badBalance := s.badBalance - 100
        badLogs := s.badLogs ++ [badChargedEntry] } := by
  have hget : (ts ++ Timer.badCharge :: rest).get? ts.length = some Timer.badCharge := by
    rw [List.get?_eq_getElem?, List.getElem?_append_right (le_refl _)]
    simp
  have herase : (ts ++ Timer.badCharge :: rest).eraseIdx ts.length = ts ++ rest := by
    simp [List.eraseIdx_append_of_length_le]
  unfold fire
  rw [h, hget, herase]
  simp [runTimer, addLog, badChargedEntry]

theorem fireBadChargesFrom_shape (k : Nat) (pre mid : List Timer) (s : State) (fuel : Nat)
    (hts : s.timers = pre ++ (mid ++
      (List.replicate k [Timer.badClickDone, Timer.badCharge]).flatten))
    (hmid : ∀ x ∈ mid, Timer.isBadCharge x = false) (hfuel : k ≤ fuel) :
    fireBadChargesFrom pre.length fuel s =
      { s with
        timers := pre ++ (mid ++ List.replicate k Timer.badClickDone)
        badBalance := s.badBalance - 100 * (k : Int)
        badLogs := s.badLogs ++ List.replicate k badChargedEntry } := by
  induction k generalizing mid s fuel with
  | zero =>
      simp only [List.replicate_zero, List.flatten_nil, List.append_nil] at hts
      have hnone := firstBadChargeFrom_none pre mid hmid
      rw [← hts] at hnone
      have hs : fireBadChargesFrom pre.length fuel s = s := by
        cases fuel with
        | zero => rfl
        | succ m => simp [fireBadChargesFrom, hnone]
      rw [hs]
      simp [← hts]
  | succ k ih =>
      obtain ⟨m, rfl⟩ : ∃ m, fuel = m + 1 := ⟨fuel - 1, by omega⟩
      have hmid2 : ∀ x ∈ mid ++ [Timer.badClickDone], Timer.isBadCharge x = false := by
        intro x hx
        rcases List.mem_append.mp hx with hx | hx
        · exact hmid x hx
        · simp only [List.mem_singleton] at hx; subst hx; rfl
      have hts2 : s.timers = (pre ++ (mid ++ [Timer.badClickDone])) ++ Timer.badCharge ::
          (List.replicate k [Timer.badClickDone, Timer.badCharge]).flatten := by
        rw [hts]; simp [List.replicate_succ]
      have hfirst : firstBadChargeFrom s.timers pre.length
          = some (pre ++ (mid ++ [Timer.badClickDone])).length := by
        have := firstBadChargeFrom_some pre (mid ++ [Timer.badClickDone])
          (List.replicate k [Timer.badClickDone, Timer.badCharge]).flatten hmid2
        rw [hts2]
        simpa using this
      have hfire := fire_badCharge s _ _ hts2
      rw [fireBadChargesFrom, hfirst]
      simp only
      rw [hfire, ih (mid ++ [Timer.badClickDone]) _ m (by simp) hmid2 (by omega)]
      simp [List.replicate_succ, List.append_assoc]
      ring

theorem handleGoodPayFrom_self (s : State) : handleGoodPayFrom s s = handleGoodPay s := rfl

theorem handleGoodPayFrom_found (r s : State)
    (h : truthy (cacheGet r.goodCache s.currentKey) = true) :
    handleGoodPayFrom r s =
      { s with
        goodLogs := s.goodLogs ++ [checkingEntry s.currentKey, keyFoundEntry]
        goodSuccess := true
        timers := s.timers ++ [Timer.goodSuccessOff] } := by
  simp [handleGoodPayFrom, addLog, h, checkingEntry, keyFoundEntry]

theorem handleGoodPayFrom_new (r s : State)
    (h : truthy (cacheGet r.goodCache s.currentKey) = false) :
    handleGoodPayFrom r s =
      { s with
        goodLogs := s.goodLogs ++ [checkingEntry s.currentKey, keyNewEntry]
        goodCache := cachePut s.goodCache s.currentKey "PROCESSING"
        timers := s.timers ++ [Timer.goodCharge s.currentKey r.goodBalance] } := by
  simp [handleGoodPayFrom, addLog, h, checkingEntry, keyNewEntry]

theorem cacheGet_handleGoodPay_of_ne (s : State) (k : String) (h : k ≠ s.currentKey) :
    cacheGet (handleGoodPay s).goodCache k = cacheGet s.goodCache k := by
  cases ht : truthy (cacheGet s.goodCache s.currentKey) with
  | true => rw [handleGoodPay_found s ht]
  | false => rw [handleGoodPay_new s ht]; exact cacheGet_cachePut_of_ne _ _ _ _ h

theorem cacheGet_runTimer_completed (s : State) (t : Timer) (k : String)
    (h : cacheGet s.goodCache k = some "COMPLETED") :
    cacheGet (runTimer s t).goodCache k = some "COMPLETED" := by
  cases t with
  | goodCharge key b =>
      by_cases hb : 100 ≤ b
      · simp only [runTimer, ge_iff_le, hb, if_true, addLog,
          if_neg (by decide : ¬ ("good" = "bad"))]
        by_cases hk : k = key
        · subst hk; exact cacheGet_cachePut_self _ _ _
        · rw [cacheGet_cachePut_of_ne _ _ _ _ hk]; exact h
      · simp only [runTimer, ge_iff_le, hb, if_false]; exact h
  | badCharge => simpa [runTimer, addLog] using h
  | _ => exact h

theorem cacheGet_step_completed (s : State) (e : Event) (k : String)
    (he : e.isReset = false) (h : cacheGet s.goodCache k = some "COMPLETED") :
    cacheGet (step s e).goodCache k = some "COMPLETED" := by
  unfold step
  rw [badClickEffect_goodCache]
  cases e with
  | badPay => simpa [handleBadPay_goodCache] using h
  | goodPay =>
      by_cases hk : k = s.currentKey
      · subst hk
        have ht : truthy (cacheGet s.goodCache s.currentKey) = true := by rw [h]; decide
        simp only [handleGoodPay_found s ht]
        exact h
      · simp only [cacheGet_handleGoodPay_of_ne s k hk]
        exact h
  | reset suffix => simp [Event.isReset] at he
  | timeout i =>
      simp only [fire]
      split
      · exact h
      · exact cacheGet_runTimer_completed _ _ _ h

theorem cacheGet_run_completed (es : List Event) (s : State) (k : String)
    (hes : ∀ e ∈ es, e.isReset = false) (h : cacheGet s.goodCache k = some "COMPLETED") :
    cacheGet (run s es).goodCache k = some "COMPLETED" := by
  induction es generalizing s with
  | nil => exact h
  | cons e es ih =>
      exact ih (step s e) (fun x hx => hes x (List.mem_cons_of_mem _ hx))
        (cacheGet_step_completed s e k (hes e (List.mem_cons_self _ _)) h)

theorem goodClicks_found_logs (n : Nat) (s : State)
    (h : truthy (cacheGet s.goodCache s.currentKey) = true) :
    (goodClicks n s).goodLogs = s.goodLogs ++
      (List.replicate n [checkingEntry s.currentKey, keyFoundEntry]).flatten := by
  induction n generalizing s with
  | zero => simp [goodClicks]
  | succ n ih =>
      have hs := handleGoodPay_found s h
      have h2 : truthy (cacheGet (handleGoodPay s).goodCache (handleGoodPay s).currentKey)
          = true := by
        rw [hs]; exact h
      rw [goodClicks, ih (handleGoodPay s) h2, hs]
      simp [List.replicate_succ, checkingEntry, keyFoundEntry]

theorem filter_eraseIdx_of_false (p : Timer → Bool) (ts : List Timer) (i : Nat) (t : Timer)
    (h : ts.get? i = some t) (hp : p t = false) :
    (ts.eraseIdx i).filter p = ts.filter p := by
  induction ts generalizing i with
  | nil => simp at h
  | cons u ts ih =>
      cases i with
      | zero =>
          simp only [List.get?_cons_zero, Option.some.injEq] at h
          subst h
          simp [List.filter_cons, hp]
      | succ j =>
          simp only [List.get?_cons_succ] at h
          simp [List.filter_cons, ih j h]

theorem filter_length_eraseIdx_of_true (p : Timer → Bool) (ts : List Timer) (i : Nat)
    (t : Timer) (h : ts.get? i = some t) (hp : p t = true) :
    (ts.filter p).length = ((ts.eraseIdx i).filter p).length + 1 := by
  induction ts generalizing i with
  | nil => simp at h
  | cons u ts ih =>
      cases i with
      | zero =>
          simp only [List.get?_cons_zero, Option.some.injEq] at h
          subst h
          simp [List.filter_cons, hp]
      | succ j =>
          simp only [List.get?_cons_succ] at h
          have := ih j h
          by_cases hu : p u = true
          · simp [List.filter_cons, hu, this]
          · simp [List.filter_cons, hu, this]

theorem mem_filter_of_get? (p : Timer → Bool) (ts : List Timer) (i : Nat) (t : Timer)
    (h : ts.get? i = some t) (hp : p t = true) : t ∈ ts.filter p := by
  rw [List.mem_filter]
  exact ⟨List.get?_mem h, hp⟩

theorem singleKeyInv_init (k0 : String) : SingleKeyInv ("key_" ++ k0) (init k0) := by
  simp [SingleKeyInv, init]

theorem singleKeyInv_badClickEffect (key : String) (old new : State)
    (h : SingleKeyInv key new) : SingleKeyInv key (badClickEffect old new) := by
  unfold badClickEffect
  split
  · simpa [SingleKeyInv, List.filter_append, Timer.isGoodCharge] using h
  · exact h

theorem singleKeyInv_handleBadPay (key : String) (s : State) (h : SingleKeyInv key s) :
    SingleKeyInv key (handleBadPay s) := by
  unfold handleBadPay
  split
  · exact h
  · simpa [SingleKeyInv, addLog, List.filter_append, Timer.isGoodCharge] using h

theorem singleKeyInv_handleGoodPay (key : String) (s : State) (h : SingleKeyInv key s) :
    SingleKeyInv key (handleGoodPay s) := by
  obtain ⟨hk, h⟩ := h
  rcases h with ⟨hc, hb, ht⟩ | ⟨hc, hb, ht⟩ | ⟨hc, hb, ht⟩
  · have hn := handleGoodPay_new s (by rw [hc]; rfl)
    rw [hn]
    refine ⟨hk, Or.inr (Or.inl ⟨?_, hb, ?_⟩)⟩
    · simp [hc, hk, cachePut]
    · simp [List.filter_append, ht, Timer.isGoodCharge, hk, hb]
  · have hf := handleGoodPay_found s (by rw [hc, hk]; simp [cacheGet, truthy])
    rw [hf]
    refine ⟨hk, Or.inr (Or.inl ⟨hc, hb, ?_⟩)⟩
    simp [List.filter_append, ht, Timer.isGoodCharge]
  · have hf := handleGoodPay_found s (by rw [hc, hk]; simp [cacheGet, truthy])
    rw [hf]
    refine ⟨hk, Or.inr (Or.inr ⟨hc, hb, ?_⟩)⟩
    simp [List.filter_append, ht, Timer.isGoodCharge]

theorem singleKeyInv_fire (key : String) (s : State) (i : Nat) (h : SingleKeyInv key s) :
    SingleKeyInv key (fire s i) := by
  unfold fire
  cases hg : s.timers.get? i with
  | none => exact h
  | some t =>
      simp only
      obtain ⟨hk, h⟩ := h
      cases t with
      | goodCharge k b =>
          have hmem := mem_filter_of_get? Timer.isGoodCharge _ _ _ hg rfl
          have hlen := filter_length_eraseIdx_of_true Timer.isGoodCharge _ _ _ hg rfl
          rcases h with ⟨hc, hb, ht⟩ | ⟨hc, hb, ht⟩ | ⟨hc, hb, ht⟩
          · rw [ht] at hmem; simp at hmem
          · rw [ht] at hmem hlen
            simp only [List.mem_singleton, Timer.goodCharge.injEq] at hmem
            obtain ⟨rfl, rfl⟩ := hmem
            have hnil : (s.timers.eraseIdx i).filter Timer.isGoodCharge = [] := by
              apply List.eq_nil_of_length_eq_zero
              simp only [List.length_singleton] at hlen
              omega
            refine ⟨by simp [runTimer, addLog, hk], Or.inr (Or.inr ?_)⟩
            simp [runTimer, addLog, hc, hb, hnil, cachePut]
          · rw [ht] at hmem; simp at hmem
      | badCharge =>
          have he := filter_eraseIdx_of_false Timer.isGoodCharge _ _ _ hg rfl
          exact ⟨by simpa [runTimer, addLog] using hk,
            by simpa [runTimer, addLog, he] using h⟩
      | badClickDone =>
          have he := filter_eraseIdx_of_false Timer.isGoodCharge _ _ _ hg rfl
          exact ⟨hk, by simpa [runTimer, he] using h⟩
      | badWarningOff =>
          have he := filter_eraseIdx_of_false Timer.isGoodCharge _ _ _ hg rfl
          exact ⟨hk, by simpa [runTimer, he] using h⟩
      | goodSuccessOff =>
          have he := filter_eraseIdx_of_false Timer.isGoodCharge _ _ _ hg rfl
          exact ⟨hk, by simpa [runTimer, he] using h⟩

theorem singleKeyInv_run (key : String) (es : List Event) (s : State)
    (hes : ∀ e ∈ es, e.isReset = false) (h : SingleKeyInv key s) :
    SingleKeyInv key (run s es) := by
  induction es generalizing s with
  | nil => exact h
  | cons e es ih =>
      apply ih (step s e) (fun x hx => hes x (List.mem_cons_of_mem _ hx))
      have he := hes e (List.mem_cons_self _ _)
      unfold step
      apply singleKeyInv_badClickEffect
      cases e with
      | badPay => exact singleKeyInv_handleBadPay key s h
      | goodPay => exact singleKeyInv_handleGoodPay key s h
      | reset suffix => simp [Event.isReset] at he
      | timeout i => exact singleKeyInv_fire key s i h

theorem badClickEffect_badClickCount (old new : State) :
    (badClickEffect old new).badClickCount = new.badClickCount := by
  unfold badClickEffect; split <;> rfl

theorem badClickEffect_timers_countP (old new : State) :
    (badClickEffect old new).timers.countP Timer.isBadClickDone
      = new.timers.countP Timer.isBadClickDone := by
  unfold badClickEffect
  split
  · simp [List.countP_append, Timer.isBadClickDone]
  · rfl

theorem step_reset (s : State) (suffix : String) :
    step s (Event.reset suffix) = resetSim s suffix := by
  simp [step, badClickEffect, resetSim]

theorem fire_of_none (s : State) (i : Nat) (h : s.timers.get? i = none) : fire s i = s := by
  unfold fire; rw [h]

theorem fire_of_some (s : State) (i : Nat) (t : Timer) (h : s.timers.get? i = some t) :
    fire s i = runTimer { s with timers := s.timers.eraseIdx i } t := by
  unfold fire; rw [h]

theorem countP_eraseIdx_of_false (p : Timer → Bool) (ts : List Timer) (i : Nat) (t : Timer)
    (h : ts.get? i = some t) (hp : p t = false) :
    (ts.eraseIdx i).countP p = ts.countP p := by
  rw [List.countP_eq_length_filter, List.countP_eq_length_filter,
    filter_eraseIdx_of_false p ts i t h hp]

theorem countP_eraseIdx_of_true (p : Timer → Bool) (ts : List Timer) (i : Nat) (t : Timer)
    (h : ts.get? i = some t) (hp : p t = true) :
    ts.countP p = (ts.eraseIdx i).countP p + 1 := by
  rw [List.countP_eq_length_filter, List.countP_eq_length_filter]
  exact filter_length_eraseIdx_of_true p ts i t h hp

theorem badClickCount_step (s : State) (e : Event) (he : e.isReset = false)
    (h : s.badClickCount = (s.timers.countP Timer.isBadClickDone : Int)) :
    (step s e).badClickCount
        = ((step s e).timers.countP Timer.isBadClickDone : Int) ∧
    (step s e).badClickCount + (firedBadClickDone s [e] : Int)
        = s.badClickCount + (acceptedBadClicks s [e] : Int) := by
  unfold step
  rw [badClickEffect_badClickCount, badClickEffect_timers_countP]
  cases e with
  | reset suffix => simp [Event.isReset] at he
  | badPay =>
      by_cases hb : 100 ≤ s.badBalance
      · rw [handleBadPay_accept s hb]
        simp [acceptedBadClicks, firedBadClickDone, hb, List.countP_append,
          List.countP_cons, Timer.isBadClickDone, h]
      · rw [handleBadPay_reject s (lt_of_not_le hb)]
        simp [acceptedBadClicks, firedBadClickDone, hb, h]
  | goodPay =>
      cases ht : truthy (cacheGet s.goodCache s.currentKey) with
      | true =>
          rw [handleGoodPay_found s ht]
          simp [acceptedBadClicks, firedBadClickDone, List.countP_append,
            Timer.isBadClickDone, h]
      | false =>
          rw [handleGoodPay_new s ht]
          simp [acceptedBadClicks, firedBadClickDone, List.countP_append,
            Timer.isBadClickDone, h]
  | timeout i =>
      simp only
      cases hg : s.timers.get? i with
      | none =>
          have hg2 := hg
          rw [List.get?_eq_getElem?] at hg2
          rw [fire_of_none s i hg]
          simp [acceptedBadClicks, firedBadClickDone, hg2, h]
      | some t =>
          have hg2 := hg
          rw [List.get?_eq_getElem?] at hg2
          rw [fire_of_some s i t hg]
          cases t with
          | badClickDone =>
              have hc := countP_eraseIdx_of_true Timer.isBadClickDone _ _ _ hg rfl
              simp [runTimer, acceptedBadClicks, firedBadClickDone, hg2, h, hc]
          | badCharge =>
              have hc := countP_eraseIdx_of_false Timer.isBadClickDone _ _ _ hg rfl
              simp [runTimer, addLog, acceptedBadClicks, firedBadClickDone, hg2, h, hc]
          | badWarningOff =>
              have hc := countP_eraseIdx_of_false Timer.isBadClickDone _ _ _ hg rfl
              simp [runTimer, acceptedBadClicks, firedBadClickDone, hg2, h, hc]
          | goodSuccessOff =>
              have hc := countP_eraseIdx_of_false Timer.isBadClickDone _ _ _ hg rfl
              simp [runTimer, acceptedBadClicks, firedBadClickDone, hg2, h, hc]
          | goodCharge key b =>
              have hc := countP_eraseIdx_of_false Timer.isBadClickDone _ _ _ hg rfl
              by_cases hb : 100 ≤ b
              · simp [runTimer, addLog, acceptedBadClicks, firedBadClickDone, hg2, h, hc, hb]
              · simp [runTimer, acceptedBadClicks, firedBadClickDone, hg2, h, hc, hb]

theorem acceptedBadClicks_cons (s : State) (e : Event) (es : List Event) :
    acceptedBadClicks s (e :: es) = acceptedBadClicks s [e] + acceptedBadClicks (step s e) es := by
  simp [acceptedBadClicks]

theorem firedBadClickDone_cons (s : State) (e : Event) (es : List Event) :
    firedBadClickDone s (e :: es) = firedBadClickDone s [e] + firedBadClickDone (step s e) es := by
  cases e <;> simp [firedBadClickDone]

theorem badClickCount_run (es : List Event) (s : State)
    (hes : ∀ e ∈ es, e.isReset = false)
    (h : s.badClickCount = (s.timers.countP Timer.isBadClickDone : Int)) :
    (run s es).badClickCount
        = ((run s es).timers.countP Timer.isBadClickDone : Int) ∧
    (run s es).badClickCount + (firedBadClickDone s es : Int)
        = s.badClickCount + (acceptedBadClicks s es : Int) := by
  induction es generalizing s with
  | nil => simp [run, acceptedBadClicks, firedBadClickDone, h]
  | cons e es ih =>
      obtain ⟨h1, h2⟩ := badClickCount_step s e (hes e (List.mem_cons_self _ _)) h
      obtain ⟨h3, h4⟩ := ih (step s e) (fun x hx => hes x (List.mem_cons_of_mem _ hx)) h1
      refine ⟨h3, ?_⟩
      rw [acceptedBadClicks_cons, firedBadClickDone_cons]
      show (run (step s e) es).badClickCount + _ = _
      push_cast
      linarith

theorem step_eq (s : State) (e : Event) : step s e = badClickEffect s (handleEvent s e) := by
  cases e <;> rfl

theorem step_badClickCount (s : State) (e : Event) :
    (step s e).badClickCount = (handleEvent s e).badClickCount := by
  rw [step_eq, badClickEffect_badClickCount]

theorem step_badWarning (s : State) (e : Event) :
    (step s e).badWarning
      = if (handleEvent s e).badClickCount ≠ s.badClickCount ∧
          (handleEvent s e).badClickCount > 1 then true
        else (handleEvent s e).badWarning := by
  rw [step_eq]
  unfold badClickEffect
  split <;> rfl

theorem runTimer_badWarning_false (s : State) (t : Timer) (h : s.badWarning = false) :
    (runTimer s t).badWarning = false := by
  cases t with
  | goodCharge key b => simp only [runTimer]; split <;> simp [addLog, h]
  | badCharge => simp [runTimer, addLog, h]
  | badClickDone => exact h
  | badWarningOff => rfl
  | goodSuccessOff => exact h

theorem handleEvent_badWarning_false (s : State) (e : Event) (h : s.badWarning = false) :
    (handleEvent s e).badWarning = false := by
  cases e with
  | badPay =>
      show (handleBadPay s).badWarning = false
      unfold handleBadPay
      split
      · exact h
      · simp [addLog, h]
  | goodPay =>
      show (handleGoodPay s).badWarning = false
      cases ht : truthy (cacheGet s.goodCache s.currentKey) with
      | true => rw [handleGoodPay_found s ht]; exact h
      | false => rw [handleGoodPay_new s ht]; exact h
  | reset suffix => rfl
  | timeout i =>
      show (fire s i).badWarning = false
      cases hg : s.timers.get? i with
      | none => rw [fire_of_none s i hg]; exact h
      | some t => rw [fire_of_some s i t hg]; exact runTimer_badWarning_false _ t h

/-! ## The claims -/

/-- C1: if `goodBalance >= 100` and the current key has no cache entry, then `N >= 1`
successive `handleGoodPay` clicks followed by the firing of every charge callback they
scheduled lower `goodBalance` by exactly 100; the clicks scheduled exactly one charge
callback and none of them is left pending. -/
theorem goodPay_clicks_charge_once (s : State) (N : Nat) (hN : 1 ≤ N) (hbal : 100 ≤ s.goodBalance)
    (hkey : cacheGet s.goodCache s.currentKey = none) :
    (fireChargesFrom s.timers.length (goodClicks N s).timers.length (goodClicks N s)).goodBalance
        = s.goodBalance - 100 ∧
    firstChargeFrom
      (fireChargesFrom s.timers.length (goodClicks N s).timers.length (goodClicks N s)).timers
      s.timers.length = none ∧
    ((goodClicks N s).timers.drop s.timers.length).filter Timer.isGoodCharge
        = [Timer.goodCharge s.currentKey s.goodBalance] := by
  obtain ⟨n, rfl⟩ : ∃ n, N = n + 1 := ⟨N - 1, by omega⟩
  have hnew := handleGoodPay_new s (by simp [hkey, truthy])
  have hfound : truthy (cacheGet (handleGoodPay s).goodCache (handleGoodPay s).currentKey) = true := by
    rw [hnew]; simp [cacheGet_cachePut_self, truthy]
  obtain ⟨hb, hc, hk, ht⟩ := goodClicks_found n (handleGoodPay s) hfound
  have ht2 : (goodClicks (n + 1) s).timers
      = s.timers ++ Timer.goodCharge s.currentKey s.goodBalance
          :: List.replicate n Timer.goodSuccessOff := by
    show (goodClicks n (handleGoodPay s)).timers = _
    rw [ht, hnew]; simp
  have hb2 : (goodClicks (n + 1) s).goodBalance = s.goodBalance := by
    show (goodClicks n (handleGoodPay s)).goodBalance = _
    rw [hb, hnew]
  have hlen : (goodClicks (n + 1) s).timers.length = (s.timers.length + n) + 1 := by
    rw [ht2]; simp; omega
  rw [hlen]
  have hfire := fire_append_charge (goodClicks (n + 1) s) s.timers _ _ _ ht2
  have hres : fireChargesFrom s.timers.length (s.timers.length + n + 1) (goodClicks (n + 1) s)
      = fire (goodClicks (n + 1) s) s.timers.length := by
    rw [fireChargesFrom_of_some _ _ s.timers.length _
      (by rw [ht2]; exact firstChargeFrom_append_charge _ _ _ _)]
    apply fireChargesFrom_of_none
    rw [hfire]
    simp [runTimer, hbal, addLog, firstChargeFrom_append_replicate]
  rw [hres, hfire]
  refine ⟨?_, ?_, ?_⟩
  · simp [runTimer, hbal, addLog, hb2]
  · simp [runTimer, hbal, addLog, firstChargeFrom_append_replicate]
  · rw [ht2]; simp [Timer.isGoodCharge, List.filter_replicate]

/-- Witness for C1: balance 1000, three clicks, final balance 900. -/
theorem goodPay_clicks_charge_once_witness :
    (fireChargesFrom (init "a").timers.length (goodClicks 3 (init "a")).timers.length
      (goodClicks 3 (init "a"))).goodBalance = 900 :=
  (goodPay_clicks_charge_once (init "a") 3 (by decide) (by decide) (by decide)).1.trans
    (by decide)

/-- C2: in every state reached from the initial state by any interleaving of clicks,
timeout callbacks and `resetSim`, the keys generated being pairwise distinct, the cache
holds each key once and `goodBalance = 1000 - 100 * (number of keys whose entry is
'COMPLETED')`. -/
theorem goodBalance_invariant (k0 : String) (es : List Event)
    (hkeys : (k0 :: drawnSuffixes es).Nodup) :
    ((run (init k0) es).goodCache.map Prod.fst).Nodup ∧
    (run (init k0) es).goodBalance
      = 1000 - 100 * (completedCount (run (init k0) es).goodCache : Int) := by
  rw [List.nodup_cons] at hkeys
  have h := goodInv_run es (init k0) (goodInv_init k0) hkeys.2 (fun x hx =>
    ⟨fun he => hkeys.1 (key_inj _ _ he ▸ hx), by simp [init, chargeKeys]⟩)
  exact ⟨h.1, h.2.1⟩

/-- Witness for C2: three clicks on one key and the charge, then a reset and a charge
on the next key. -/
theorem goodBalance_invariant_witness :
    (run (init "a") [Event.goodPay, Event.goodPay, Event.goodPay, Event.timeout 0,
      Event.reset "b", Event.goodPay, Event.timeout 2]).goodBalance = 900 :=
  (goodBalance_invariant "a" [Event.goodPay, Event.goodPay, Event.goodPay, Event.timeout 0,
    Event.reset "b", Event.goodPay, Event.timeout 2] (by decide)).2.trans (by decide)

/-- C2 fails when `resetSim` draws the key that is already in use: a click, a reset that
draws `a` again, a second click on the emptied cache, then both charge callbacks.  One
key is `'COMPLETED'` and the balance is 800, not 900. -/
theorem goodBalance_repeated_key :
    (run (init "a") [Event.goodPay, Event.reset "a", Event.goodPay, Event.timeout 0,
      Event.timeout 0]).goodCache = [("key_a", "COMPLETED")] ∧
    (run (init "a") [Event.goodPay, Event.reset "a", Event.goodPay, Event.timeout 0,
      Event.timeout 0]).goodBalance = 800 ∧
    (run (init "a") [Event.goodPay, Event.reset "a", Event.goodPay, Event.timeout 0,
      Event.timeout 0]).goodBalance
      ≠ 1000 - 100 * (completedCount (run (init "a") [Event.goodPay, Event.reset "a",
          Event.goodPay, Event.timeout 0, Event.timeout 0]).goodCache : Int) := by
  decide

/-- C3: when `goodCache[key]` is `'COMPLETED'`, any number `n` of `handleGoodPay` clicks
leaves `goodBalance` and `goodCache` unchanged and schedules no charge callback: the
only timeouts added are the `n` callbacks that hide the success banner. -/
theorem goodPay_completed_idempotent (s : State) (n : Nat)
    (h : cacheGet s.goodCache s.currentKey = some "COMPLETED") :
    (goodClicks n s).goodBalance = s.goodBalance ∧
    (goodClicks n s).goodCache = s.goodCache ∧
    (goodClicks n s).timers = s.timers ++ List.replicate n Timer.goodSuccessOff ∧
    (goodClicks n s).timers.filter Timer.isGoodCharge
      = s.timers.filter Timer.isGoodCharge := by
  obtain ⟨hb, hc, _, ht⟩ := goodClicks_found n s (by rw [h]; decide)
  refine ⟨hb, hc, ht, ?_⟩
  rw [ht]
  simp [List.filter_replicate, Timer.isGoodCharge]

/-- Witness for C3: a completed key clicked three more times. -/
theorem goodPay_completed_idempotent_witness :
    (goodClicks 3 (fire (handleGoodPay (init "a")) 0)).goodBalance = 900 ∧
    (goodClicks 3 (fire (handleGoodPay (init "a")) 0)).goodCache
      = [("key_a", "COMPLETED")] :=
  ⟨(goodPay_completed_idempotent (fire (handleGoodPay (init "a")) 0) 3 (by decide)).1.trans
      (by decide),
   (goodPay_completed_idempotent (fire (handleGoodPay (init "a")) 0) 3 (by decide)).2.1.trans
      (by decide)⟩

/-- C4, as the code behaves: a duplicate click on a key whose status is `'PROCESSING'`
produces exactly what a click on the same state with the status `'COMPLETED'` produces:
the entries `Checking Key` and `Key Found! Returning cached response.`, the banner
`goodSuccess = true` and the banner timeout only.  Neither click schedules a charge. -/
theorem goodPay_processing_response (s : State)
    (h : cacheGet s.goodCache s.currentKey = some "PROCESSING") :
    goodPayOutput s
      = goodPayOutput { s with goodCache := cachePut s.goodCache s.currentKey "COMPLETED" } ∧
    goodPayOutput s
      = ([{ msg := "Checking Key: " ++ s.currentKey ++ "...", color := "text-blue-400" },
          { msg := "Key Found! Returning cached response.", color := "text-teal-400" }],
         true, [Timer.goodSuccessOff]) := by
  have h1 := handleGoodPay_found s (by rw [h]; decide)
  have h2 := handleGoodPay_found
    { s with goodCache := cachePut s.goodCache s.currentKey "COMPLETED" }
    (by simp [cacheGet_cachePut_self, truthy])
  unfold goodPayOutput
  rw [h1, h2]
  simp

/-- Witness for the amended C4: the state after a first click. -/
theorem goodPay_processing_response_witness :
    goodPayOutput (handleGoodPay (init "a"))
      = ([{ msg := "Checking Key: key_a...", color := "text-blue-400" },
          { msg := "Key Found! Returning cached response.", color := "text-teal-400" }],
         true, [Timer.goodSuccessOff]) :=
  (goodPay_processing_response (handleGoodPay (init "a")) (by decide)).2.trans (by decide)

/-- C4 fails: two states that differ only in the status of the current key
(`'PROCESSING'` against `'COMPLETED'`) get the same messages and signals from a click. -/
theorem goodPay_conflict_not_distinct :
    cacheGet (handleGoodPay (init "a")).goodCache "key_a" = some "PROCESSING" ∧
    goodPayOutput (handleGoodPay (init "a"))
      = goodPayOutput
          { handleGoodPay (init "a") with goodCache := [("key_a", "COMPLETED")] } := by
  decide

/-- C5: a click on a key without cache entry stores `'PROCESSING'` under that key,
touches no other key and schedules exactly one timeout, the charge callback; a click on
a key that has an entry (a non-empty status string) leaves `goodCache` unchanged and
schedules only the banner timeout, no charge callback. -/
theorem goodPay_reserve (s : State) :
    (cacheGet s.goodCache s.currentKey = none →
      cacheGet (handleGoodPay s).goodCache s.currentKey = some "PROCESSING" ∧
      (∀ k, k ≠ s.currentKey →
        cacheGet (handleGoodPay s).goodCache k = cacheGet s.goodCache k) ∧
      (handleGoodPay s).timers
        = s.timers ++ [Timer.goodCharge s.currentKey s.goodBalance]) ∧
    (∀ v, cacheGet s.goodCache s.currentKey = some v → v ≠ "" →
      (handleGoodPay s).goodCache = s.goodCache ∧
      (handleGoodPay s).timers = s.timers ++ [Timer.goodSuccessOff]) := by
  constructor
  · intro h
    rw [handleGoodPay_new s (by rw [h]; rfl)]
    exact ⟨cacheGet_cachePut_self _ _ _,
      fun k hk => cacheGet_cachePut_of_ne _ _ _ _ hk, rfl⟩
  · intro v h hv
    rw [handleGoodPay_found s (by rw [h]; simpa [truthy] using hv)]
    exact ⟨rfl, rfl⟩

/-- Witness for C5: the first click reserves the key, the second one finds it. -/
theorem goodPay_reserve_witness :
    cacheGet (handleGoodPay (init "a")).goodCache "key_a" = some "PROCESSING" ∧
    (handleGoodPay (handleGoodPay (init "a"))).goodCache
      = (handleGoodPay (init "a")).goodCache :=
  ⟨((goodPay_reserve (init "a")).1 (by decide)).1,
   ((goodPay_reserve (handleGoodPay (init "a"))).2 "PROCESSING" (by decide) (by decide)).1⟩

/-- C6, as the code behaves: in every execution from the initial state, a change that a
`handleGoodPay` click makes to a key's status is absent to `'PROCESSING'`, and a change
that a timeout callback makes is to `'COMPLETED'`, from `'PROCESSING'` or from an absent
entry (the completion step is not guarded). -/
theorem goodCache_transitions (k0 : String) (es : List Event) (k : String) :
    (cacheGet (handleGoodPay (run (init k0) es)).goodCache k
        ≠ cacheGet (run (init k0) es).goodCache k →
      cacheGet (run (init k0) es).goodCache k = none ∧
      cacheGet (handleGoodPay (run (init k0) es)).goodCache k = some "PROCESSING") ∧
    (∀ i, cacheGet (fire (run (init k0) es) i).goodCache k
        ≠ cacheGet (run (init k0) es).goodCache k →
      cacheGet (fire (run (init k0) es) i).goodCache k = some "COMPLETED" ∧
      (cacheGet (run (init k0) es).goodCache k = some "PROCESSING" ∨
        cacheGet (run (init k0) es).goodCache k = none)) :=
  ⟨cacheGet_handleGoodPay_change _ _ (statusValues_run _ _ (statusValues_init k0)),
   fun i => cacheGet_fire_change _ i _ (statusValues_run _ _ (statusValues_init k0))⟩

/-- Witness for the amended C6: the first click reserves, its callback completes. -/
theorem goodCache_transitions_witness :
    (cacheGet (run (init "a") []).goodCache "key_a" = none ∧
      cacheGet (handleGoodPay (run (init "a") [])).goodCache "key_a" = some "PROCESSING") ∧
    (cacheGet (fire (run (init "a") [Event.goodPay]) 0).goodCache "key_a" = some "COMPLETED" ∧
      (cacheGet (run (init "a") [Event.goodPay]).goodCache "key_a" = some "PROCESSING" ∨
        cacheGet (run (init "a") [Event.goodPay]).goodCache "key_a" = none)) :=
  ⟨(goodCache_transitions "a" [] "key_a").1 (by decide),
   (goodCache_transitions "a" [Event.goodPay] "key_a").2 0 (by decide)⟩

/-- C6 fails: a click, then `resetSim`, then the click's charge callback.  When the
callback fires the key has no entry, and the callback marks it `'COMPLETED'`. -/
theorem goodCharge_completes_absent_key :
    (run (init "a") [Event.goodPay, Event.reset "b"]).timers.get? 0
      = some (Timer.goodCharge "key_a" 1000) ∧
    cacheGet (run (init "a") [Event.goodPay, Event.reset "b"]).goodCache "key_a" = none ∧
    cacheGet (run (init "a") [Event.goodPay, Event.reset "b", Event.timeout 0]).goodCache
      "key_a" = some "COMPLETED" := by
  decide

/-- C7, as the code behaves: after a protected charge was skipped for insufficient
funds the key keeps the status `'PROCESSING'`; a later click with the same key, whatever
the balance `b` is by then, takes the cached branch: it changes neither `goodCache` nor
the balance and schedules only the banner timeout, no charge. -/
theorem goodPay_after_insufficient (s : State) (b : Int) (hbal : s.goodBalance < 100)
    (hkey : cacheGet s.goodCache s.currentKey = none) :
    cacheGet (fire (handleGoodPay s) s.timers.length).goodCache s.currentKey
      = some "PROCESSING" ∧
    handleGoodPay { fire (handleGoodPay s) s.timers.length with goodBalance := b }
      = { fire (handleGoodPay s) s.timers.length with
          goodBalance := b
          goodLogs := (handleGoodPay s).goodLogs ++
            [{ msg := "Checking Key: " ++ s.currentKey ++ "...", color := "text-blue-400" },
             { msg := "Key Found! Returning cached response.", color := "text-teal-400" }]
          goodSuccess := true
          timers := s.timers ++ [Timer.goodSuccessOff] } := by
  have hnew := handleGoodPay_new s (by rw [hkey]; rfl)
  have ht : (handleGoodPay s).timers
      = s.timers ++ Timer.goodCharge s.currentKey s.goodBalance :: [] := by rw [hnew]
  have hf : fire (handleGoodPay s) s.timers.length
      = { handleGoodPay s with timers := s.timers } := by
    rw [fire_append_charge _ _ _ _ _ ht]
    simp [runTimer, not_le.mpr hbal]
  rw [hf]
  constructor
  · rw [hnew]; exact cacheGet_cachePut_self _ _ _
  · rw [handleGoodPay_found]
    · rw [hnew]
    · rw [hnew]; simp [cacheGet_cachePut_self, truthy]

/-- Witness for the amended C7: balance 50, the key stays `'PROCESSING'`. -/
theorem goodPay_after_insufficient_witness :
    cacheGet (fire (handleGoodPay { init "a" with goodBalance := 50 }) 0).goodCache "key_a"
      = some "PROCESSING" :=
  (goodPay_after_insufficient { init "a" with goodBalance := 50 } 150
    (by decide) (by decide)).1

set_option maxRecDepth 100000 in
/-- C7 fails.  First on a reachable state: after `drainEvents` the balance is 0 and the
current key `key_k` has no entry; a click reserves it, its callback fires without
charging, and the next click with the same key takes the cached branch and schedules no
charge, the key still being `'PROCESSING'`.  Then on the scenario with balance 50 raised
to 150 before the retry: the retry again takes the cached branch, and after its only
timeout has fired the balance is still 150 and the key still `'PROCESSING'`. -/
theorem goodPay_failed_key_not_retryable :
    ((run (init "a") drainEvents).goodBalance = 0 ∧
      (run (init "a") drainEvents).currentKey = "key_k" ∧
      cacheGet (run (init "a") drainEvents).goodCache "key_k" = none ∧
      (run (init "a") (drainEvents ++ [Event.goodPay])).timers
        = [Timer.goodCharge "key_k" 0] ∧
      cacheGet (run (init "a") (drainEvents ++ [Event.goodPay, Event.timeout 0])).goodCache
        "key_k" = some "PROCESSING" ∧
      (run (init "a")
          (drainEvents ++ [Event.goodPay, Event.timeout 0, Event.goodPay])).goodLogs.getLast?
        = some { msg := "Key Found! Returning cached response.", color := "text-teal-400" } ∧
      (run (init "a") (drainEvents ++ [Event.goodPay, Event.timeout 0, Event.goodPay])).timers
        = [Timer.goodSuccessOff]) ∧
    ((handleGoodPay { fire (handleGoodPay { init "a" with goodBalance := 50 }) 0
          with goodBalance := 150 }).goodLogs.getLast?
        = some { msg := "Key Found! Returning cached response.", color := "text-teal-400" } ∧
      (handleGoodPay { fire (handleGoodPay { init "a" with goodBalance := 50 }) 0
          with goodBalance := 150 }).timers = [Timer.goodSuccessOff] ∧
      (fire (handleGoodPay { fire (handleGoodPay { init "a" with goodBalance := 50 }) 0
          with goodBalance := 150 }) 0).goodBalance = 150 ∧
      cacheGet (fire (handleGoodPay { fire (handleGoodPay { init "a" with goodBalance := 50 }) 0
          with goodBalance := 150 }) 0).goodCache "key_a" = some "PROCESSING") := by
  decide

/-- C8: with `goodBalance < 100` and a key without cache entry, the click schedules its
charge callback at the end of the queue, and the click followed by the firing of that
callback leaves `goodBalance` exactly as it was. -/
theorem goodPay_insufficient_keeps_balance (s : State) (hbal : s.goodBalance < 100)
    (hkey : cacheGet s.goodCache s.currentKey = none) :
    (handleGoodPay s).timers.get? s.timers.length
      = some (Timer.goodCharge s.currentKey s.goodBalance) ∧
    (fire (handleGoodPay s) s.timers.length).goodBalance = s.goodBalance := by
  have hnew := handleGoodPay_new s (by rw [hkey]; rfl)
  have ht : (handleGoodPay s).timers
      = s.timers ++ Timer.goodCharge s.currentKey s.goodBalance :: [] := by rw [hnew]
  constructor
  · rw [ht, List.get?_eq_getElem?, List.getElem?_append_right (le_refl _)]
    simp
  · rw [fire_append_charge _ _ _ _ _ ht, hnew]
    simp [runTimer, not_le.mpr hbal]

/-- Witness for C8: balance 50 stays 50. -/
theorem goodPay_insufficient_keeps_balance_witness :
    (fire (handleGoodPay { init "a" with goodBalance := 50 }) 0).goodBalance = 50 :=
  (goodPay_insufficient_keeps_balance { init "a" with goodBalance := 50 }
    (by decide) (by decide)).2

/-- C9, as the code behaves: a charge callback whose captured balance is below 100
does nothing when it fires.  The state afterwards is the state before without that
callback in the queue: no status changes and no entry is appended to `goodLogs`. -/
theorem goodCharge_insufficient_silent (s : State) (i : Nat) (key : String) (b : Int)
    (h : s.timers.get? i = some (Timer.goodCharge key b)) (hb : b < 100) :
    fire s i = { s with timers := s.timers.eraseIdx i } := by
  unfold fire
  rw [h]
  simp [runTimer, not_le.mpr hb]

/-- Witness for the amended C9: the callback of a click made with balance 50. -/
theorem goodCharge_insufficient_silent_witness :
    fire (handleGoodPay { init "a" with goodBalance := 50 }) 0
      = { handleGoodPay { init "a" with goodBalance := 50 } with
          timers := (handleGoodPay { init "a" with goodBalance := 50 }).timers.eraseIdx 0 } :=
  goodCharge_insufficient_silent (handleGoodPay { init "a" with goodBalance := 50 }) 0
    "key_a" 50 (by decide) (by decide)

set_option maxRecDepth 100000 in
/-- C9 fails.  On a reachable state: after `drainEvents` (balance 0) a click schedules
its charge callback, and the firing of that callback changes nothing but the queue: no
status changes, `goodLogs` gets no entry.  The same with balance 50: the key stays
`'PROCESSING'` and `goodLogs` is as the click left it. -/
theorem goodCharge_failure_not_surfaced :
    ((run (init "a") (drainEvents ++ [Event.goodPay])).timers
        = [Timer.goodCharge "key_k" 0] ∧
      step (run (init "a") (drainEvents ++ [Event.goodPay])) (Event.timeout 0)
        = { run (init "a") (drainEvents ++ [Event.goodPay]) with timers := [] }) ∧
    ((handleGoodPay { init "a" with goodBalance := 50 }).timers
        = [Timer.goodCharge "key_a" 50] ∧
      (fire (handleGoodPay { init "a" with goodBalance := 50 }) 0).goodLogs
        = (handleGoodPay { init "a" with goodBalance := 50 }).goodLogs ∧
      (fire (handleGoodPay { init "a" with goodBalance := 50 }) 0).goodCache
        = [("key_a", "PROCESSING")]) := by
  decide

/-- C10: the firing of a protected charge callback is all or nothing.  When the balance
captured by the callback is at least 100 the firing lowers `goodBalance` by exactly 100
and leaves the key `'COMPLETED'`; otherwise it changes neither `goodBalance` nor
`goodCache`.  No firing does one without the other. -/
theorem goodCharge_atomic (s : State) (i : Nat) (key : String) (b : Int)
    (h : s.timers.get? i = some (Timer.goodCharge key b)) :
    (100 ≤ b ∧ (fire s i).goodBalance = s.goodBalance - 100 ∧
      cacheGet (fire s i).goodCache key = some "COMPLETED") ∨
    (b < 100 ∧ (fire s i).goodBalance = s.goodBalance ∧
      (fire s i).goodCache = s.goodCache) := by
  unfold fire
  rw [h]
  by_cases hb : 100 ≤ b
  · left
    simp [runTimer, hb, addLog, cacheGet_cachePut_self]
  · right
    simp [runTimer, hb, lt_of_not_le hb]

/-- Witness for C10: the callback of a first click on a funded wallet. -/
theorem goodCharge_atomic_witness :
    ((100 : Int) ≤ 1000 ∧
      (fire (handleGoodPay (init "a")) 0).goodBalance
        = (handleGoodPay (init "a")).goodBalance - 100 ∧
      cacheGet (fire (handleGoodPay (init "a")) 0).goodCache "key_a" = some "COMPLETED") ∨
    ((1000 : Int) < 100 ∧
      (fire (handleGoodPay (init "a")) 0).goodBalance
        = (handleGoodPay (init "a")).goodBalance ∧
      (fire (handleGoodPay (init "a")) 0).goodCache = (handleGoodPay (init "a")).goodCache) :=
  goodCharge_atomic (handleGoodPay (init "a")) 0 "key_a" 1000 (by decide)

set_option maxRecDepth 100000 in
/-- C11 fails on the code.  Unprotected wallet: after eleven clicks and ten charge
callbacks `badBalance` is 0, the eleventh charge callback is pending, and its firing
gives `badBalance = -100`.  Protected wallet: after eleven click and reset pairs and ten
charge callbacks `goodBalance` is 0, the callback of `key_j` (which captured 1000) is
pending, and its firing gives `goodBalance = -100` and marks the key `'COMPLETED'`. -/
theorem charge_overdraws_balance :
    ((run (init "a") badDrainEvents).badBalance = 0 ∧
      (run (init "a") badDrainEvents).timers.get? 20 = some Timer.badCharge ∧
      (run (init "a") badOverdrawEvents).badBalance = -100) ∧
    ((run (init "a") ([Event.goodPay, Event.reset "z"] ++ drainEvents)).goodBalance = 0 ∧
      (run (init "a") ([Event.goodPay, Event.reset "z"] ++ drainEvents)).timers
        = [Timer.goodCharge "key_j" 1000] ∧
      (run (init "a") goodOverdrawEvents).goodBalance = -100 ∧
      cacheGet (run (init "a") goodOverdrawEvents).goodCache "key_j" = some "COMPLETED") := by
  decide

/-- C12: from a state with `badBalance = B >= 100`, `N >= 1` clicks of `handleBadPay`
made before any charge callback fires are all accepted, and after the firing of every
charge callback they scheduled `badBalance = B - 100 * N`; `badLogs` gained the `N`
request entries followed by exactly `N` entries `HTTP 200: Charged $100`, and no charge
callback of these clicks is left pending. -/
theorem badPay_clicks_charge_each (s : State) (N : Nat) (hN : 1 ≤ N)
    (hB : 100 ≤ s.badBalance) :
    (fireBadChargesFrom s.timers.length (badClicks N s).timers.length
        (badClicks N s)).badBalance = s.badBalance - 100 * (N : Int) ∧
    (fireBadChargesFrom s.timers.length (badClicks N s).timers.length
        (badClicks N s)).badLogs
      = s.badLogs ++ List.replicate N badRequestEntry ++ List.replicate N badChargedEntry ∧
    firstBadChargeFrom
      (fireBadChargesFrom s.timers.length (badClicks N s).timers.length
        (badClicks N s)).timers s.timers.length = none := by
  have hc := badClicks_accept N s hB
  have hts : (badClicks N s).timers = s.timers ++ ([] ++
      (List.replicate N [Timer.badClickDone, Timer.badCharge]).flatten) := by
    rw [hc]; simp
  have hlen : N ≤ (badClicks N s).timers.length := by
    rw [hc]; simp; omega
  rw [fireBadChargesFrom_shape N s.timers [] (badClicks N s) _ hts (by simp) hlen]
  refine ⟨?_, ?_, ?_⟩
  · rw [hc]
  · rw [hc]
  · exact firstBadChargeFrom_none s.timers _ (by
      intro x hx
      simp only [List.nil_append, List.mem_replicate] at hx
      rw [hx.2]; rfl)

/-- Witness for C12: balance 1000, three clicks, final balance 700 and three success
entries. -/
theorem badPay_clicks_charge_each_witness :
    (fireBadChargesFrom (init "a").timers.length (badClicks 3 (init "a")).timers.length
        (badClicks 3 (init "a"))).badBalance = 700 ∧
    (fireBadChargesFrom (init "a").timers.length (badClicks 3 (init "a")).timers.length
        (badClicks 3 (init "a"))).badLogs
      = [serverLogs, badRequestEntry, badRequestEntry, badRequestEntry,
         badChargedEntry, badChargedEntry, badChargedEntry] :=
  ⟨(badPay_clicks_charge_each (init "a") 3 (by decide) (by decide)).1.trans (by decide),
   (badPay_clicks_charge_each (init "a") 3 (by decide) (by decide)).2.1.trans (by decide)⟩

/-- C13, as the code behaves: a `handleBadPay` click made with `badBalance >= 100`
schedules a charge callback, and the firing of a pending charge callback lowers
`badBalance` by 100 whatever the balance is at that moment; a click made with
`badBalance < 100` changes nothing and schedules nothing. -/
theorem badPay_charge_guarded (s : State) :
    (100 ≤ s.badBalance →
      (handleBadPay s).timers = s.timers ++ [Timer.badClickDone, Timer.badCharge]) ∧
    (∀ i, s.timers.get? i = some Timer.badCharge →
      (fire s i).badBalance = s.badBalance - 100) ∧
    (s.badBalance < 100 → handleBadPay s = s) := by
  refine ⟨fun h => ?_, fun i h => ?_, handleBadPay_reject s⟩
  · rw [handleBadPay_accept s h]
  · unfold fire
    rw [h]
    simp [runTimer, addLog]

/-- Witness for the amended C13: the first click and its charge callback. -/
theorem badPay_charge_guarded_witness :
    (handleBadPay (init "a")).timers = [Timer.badClickDone, Timer.badCharge] ∧
    (fire (handleBadPay (init "a")) 1).badBalance = 900 ∧
    handleBadPay { init "a" with badBalance := 50 } = { init "a" with badBalance := 50 } :=
  ⟨(badPay_charge_guarded (init "a")).1 (by decide),
   ((badPay_charge_guarded (handleBadPay (init "a"))).2.1 1 (by decide)).trans (by decide),
   (badPay_charge_guarded { init "a" with badBalance := 50 }).2.2 (by decide)⟩

set_option maxRecDepth 100000 in
/-- C13 fails: in the state reached by eleven clicks and the first ten charge callbacks
`badBalance` is 0, and a `handleBadPay` click returns at its guard: the state is
unchanged, no log entry is written and no charge callback is scheduled. -/
theorem badPay_blocked_below_100 :
    (run (init "a") badDrainEvents).badBalance = 0 ∧
    handleBadPay (run (init "a") badDrainEvents)
      = run (init "a") badDrainEvents ∧
    step (run (init "a") badDrainEvents) Event.badPay
      = run (init "a") badDrainEvents := by
  decide

/-- C14: for keys `k1 ≠ k2` and every state, a `handleGoodPay` click with `k1` and the
firing of a charge callback of `k1` leave `goodCache[k2]` unchanged; a click with `k2`
when `k2` has no entry reserves `k2` and schedules its own charge, whatever entry `k1`
has (in the state itself, or after any status `v` is stored under `k1`). -/
theorem goodPay_keys_independent (s : State) (k1 k2 : String) (hne : k1 ≠ k2) :
    cacheGet (handleGoodPay { s with currentKey := k1 }).goodCache k2
      = cacheGet s.goodCache k2 ∧
    (∀ i b, s.timers.get? i = some (Timer.goodCharge k1 b) →
      cacheGet (fire s i).goodCache k2 = cacheGet s.goodCache k2) ∧
    (cacheGet s.goodCache k2 = none →
      cacheGet (handleGoodPay { s with currentKey := k2 }).goodCache k2
        = some "PROCESSING" ∧
      (handleGoodPay { s with currentKey := k2 }).timers
        = s.timers ++ [Timer.goodCharge k2 s.goodBalance] ∧
      ∀ v, (handleGoodPay
          { s with currentKey := k2, goodCache := cachePut s.goodCache k1 v }).timers
        = s.timers ++ [Timer.goodCharge k2 s.goodBalance]) := by
  refine ⟨?_, ?_, ?_⟩
  · exact cacheGet_handleGoodPay_of_ne { s with currentKey := k1 } k2 (Ne.symm hne)
  · intro i b h
    unfold fire
    rw [h]
    by_cases hb : 100 ≤ b
    · simp only [runTimer, ge_iff_le, hb, if_true, addLog,
        if_neg (by decide : ¬ ("good" = "bad"))]
      exact cacheGet_cachePut_of_ne _ _ _ _ (Ne.symm hne)
    · simp only [runTimer, ge_iff_le, hb, if_false]
  · intro h
    have h1 := handleGoodPay_new { s with currentKey := k2 } (by
      show truthy (cacheGet s.goodCache k2) = false
      rw [h]; rfl)
    refine ⟨?_, ?_, fun v => ?_⟩
    · rw [h1]; exact cacheGet_cachePut_self _ _ _
    · rw [h1]
    · rw [handleGoodPay_new _ (by
        show truthy (cacheGet (cachePut s.goodCache k1 v) k2) = false
        rw [cacheGet_cachePut_of_ne _ _ _ _ (Ne.symm hne), h]; rfl)]

/-- Witness for C14: `key_a` is completed, then `key_b` is clicked. -/
theorem goodPay_keys_independent_witness :
    cacheGet (handleGoodPay
        { fire (handleGoodPay (init "a")) 0 with currentKey := "key_b" }).goodCache "key_b"
      = some "PROCESSING" ∧
    cacheGet (handleGoodPay
        { fire (handleGoodPay (init "a")) 0 with currentKey := "key_b" }).goodCache "key_a"
      = some "COMPLETED" :=
  ⟨((goodPay_keys_independent (fire (handleGoodPay (init "a")) 0) "key_a" "key_b"
      (by decide)).2.2 (by decide)).1,
   ((goodPay_keys_independent (fire (handleGoodPay (init "a")) 0) "key_b" "key_a"
      (by decide)).1).trans (by decide)⟩

/-- C15: once a key's entry is `'COMPLETED'` it stays `'COMPLETED'` through every
sequence of events that contains no `resetSim`: clicks of either button and the firing
of any pending timeout, for that key or any other. -/
theorem completed_is_terminal (s : State) (es : List Event) (k : String)
    (hes : ∀ e ∈ es, e.isReset = false)
    (h : cacheGet s.goodCache k = some "COMPLETED") :
    cacheGet (run s es).goodCache k = some "COMPLETED" :=
  cacheGet_run_completed es s k hes h

/-- Witness for C15: a completed key, then two more clicks. -/
theorem completed_is_terminal_witness :
    cacheGet (run (run (init "a") [Event.goodPay, Event.timeout 0])
      [Event.goodPay, Event.badPay, Event.goodPay]).goodCache "key_a" = some "COMPLETED" :=
  completed_is_terminal (run (init "a") [Event.goodPay, Event.timeout 0])
    [Event.goodPay, Event.badPay, Event.goodPay] "key_a" (by decide) (by decide)

/-- C16: every `handleGoodPay` click appends entries to `goodLogs`, and the firing of a
pending timeout that changes `goodCache` or `goodBalance` appends the entry
`HTTP 200: Charged $100. Key Saved.` to `goodLogs` in the same step. -/
theorem goodLogs_on_state_change (s : State) :
    (∃ l, l ≠ [] ∧ (handleGoodPay s).goodLogs = s.goodLogs ++ l) ∧
    (∀ i, (fire s i).goodCache ≠ s.goodCache ∨ (fire s i).goodBalance ≠ s.goodBalance →
      (fire s i).goodLogs = s.goodLogs ++ [goodChargedEntry]) := by
  constructor
  · cases ht : truthy (cacheGet s.goodCache s.currentKey) with
    | true =>
        exact ⟨[checkingEntry s.currentKey, keyFoundEntry], by simp,
          by rw [handleGoodPay_found s ht]; rfl⟩
    | false =>
        exact ⟨[checkingEntry s.currentKey, keyNewEntry], by simp,
          by rw [handleGoodPay_new s ht]; rfl⟩
  · intro i h
    unfold fire at h ⊢
    cases hg : s.timers.get? i with
    | none => rw [hg] at h; simp at h
    | some t =>
        rw [hg] at h
        simp only at h ⊢
        cases t with
        | goodCharge key b =>
            by_cases hb : 100 ≤ b
            · simp [runTimer, hb, addLog, goodChargedEntry]
            · simp [runTimer, hb] at h
        | badCharge => simp [runTimer, addLog] at h
        | badClickDone => simp [runTimer] at h
        | badWarningOff => simp [runTimer] at h
        | goodSuccessOff => simp [runTimer] at h

/-- Witness for C16: the charge callback of the first click changes the balance and
writes its log entry. -/
theorem goodLogs_on_state_change_witness :
    (fire (handleGoodPay (init "a")) 0).goodLogs
      = (handleGoodPay (init "a")).goodLogs ++ [goodChargedEntry] :=
  (goodLogs_on_state_change (handleGoodPay (init "a"))).2 0 (Or.inr (by decide))

/-- C17, as the code behaves: an invocation of `handleGoodPay` decides on the
`goodCache` of the render it was created in.  It reserves the key and schedules the
charge exactly when the key has no truthy entry in that snapshot.  So of two invocations
for an absent key of which the second observes the state left by the first, exactly the
first schedules the charge. -/
theorem goodPay_reserve_by_snapshot (r s : State) :
    (truthy (cacheGet r.goodCache s.currentKey) = false →
      (handleGoodPayFrom r s).timers
        = s.timers ++ [Timer.goodCharge s.currentKey r.goodBalance]) ∧
    (truthy (cacheGet r.goodCache s.currentKey) = true →
      (handleGoodPayFrom r s).timers = s.timers ++ [Timer.goodSuccessOff] ∧
      (handleGoodPayFrom r s).goodCache = s.goodCache) ∧
    (cacheGet s.goodCache s.currentKey = none →
      (handleGoodPayFrom (handleGoodPayFrom s s) (handleGoodPayFrom s s)).timers
        = s.timers ++ [Timer.goodCharge s.currentKey s.goodBalance, Timer.goodSuccessOff]) := by
  refine ⟨fun h => ?_, fun h => ?_, fun h => ?_⟩
  · rw [handleGoodPayFrom_new r s h]
  · rw [handleGoodPayFrom_found r s h]; exact ⟨rfl, rfl⟩
  · have h1 := handleGoodPayFrom_new s s (by rw [h]; rfl)
    rw [handleGoodPayFrom_found]
    · rw [h1]; simp
    · rw [h1]; simp [cacheGet_cachePut_self, truthy]

/-- Witness for the amended C17: two clicks, the second after the render. -/
theorem goodPay_reserve_by_snapshot_witness :
    (handleGoodPayFrom (handleGoodPayFrom (init "a") (init "a"))
        (handleGoodPayFrom (init "a") (init "a"))).timers
      = [Timer.goodCharge "key_a" 1000, Timer.goodSuccessOff] :=
  ((goodPay_reserve_by_snapshot (init "a") (init "a")).2.2 (by decide)).trans (by decide)

/-- C17 fails: two invocations of the handler of the first render, the second before
the state update of the first is rendered.  Both read the empty `goodCache`, both log
`Key New` and both schedule a charge; after the two callbacks the balance is 800. -/
theorem goodPay_same_snapshot_double_charge :
    (handleGoodPayFrom (init "a") (handleGoodPayFrom (init "a") (init "a"))).timers
      = [Timer.goodCharge "key_a" 1000, Timer.goodCharge "key_a" 1000] ∧
    (handleGoodPayFrom (init "a") (handleGoodPayFrom (init "a") (init "a"))).goodLogs
      = [serverLogs, checkingEntry "key_a", keyNewEntry, checkingEntry "key_a", keyNewEntry] ∧
    (fire (fire (handleGoodPayFrom (init "a") (handleGoodPayFrom (init "a") (init "a"))) 0)
      0).goodBalance = 800 := by
  decide

/-- C18: in every state reached from the initial state, every value stored in
`goodCache` is `'PROCESSING'` or `'COMPLETED'`; in particular no key ever reads
`'FAILED'`. -/
theorem goodCache_status_values (k0 : String) (es : List Event) :
    StatusValues (run (init k0) es).goodCache ∧
    ∀ k, cacheGet (run (init k0) es).goodCache k ≠ some "FAILED" := by
  have h := statusValues_run (init k0) es (statusValues_init k0)
  refine ⟨h, fun k hk => ?_⟩
  rcases cacheGet_statusValues _ _ _ h hk with h1 | h1 <;> exact absurd h1 (by decide)

/-- Witness for C18: after a click and its charge the only value is `'COMPLETED'`. -/
theorem goodCache_status_values_witness :
    StatusValues (run (init "a") [Event.goodPay, Event.timeout 0]).goodCache ∧
    ∀ k, cacheGet (run (init "a") [Event.goodPay, Event.timeout 0]).goodCache k
      ≠ some "FAILED" :=
  goodCache_status_values "a" [Event.goodPay, Event.timeout 0]

/-- C19: a `handleGoodPay` click appends exactly two entries to the end of `goodLogs`:
`Checking Key: <key>...`, then `Key Found! Returning cached response.` when the key has
an entry (a non-empty status string) and `Key New. Locking & Processing...` when it has
none; `badLogs` is unchanged.  Of `N >= 1` successive clicks on an absent key the first
logs `Key New` and the other `N - 1` log `Key Found`. -/
theorem goodPay_log_entries (s : State) (N : Nat) (hN : 1 ≤ N) :
    (cacheGet s.goodCache s.currentKey = none →
      (handleGoodPay s).goodLogs = s.goodLogs ++ [checkingEntry s.currentKey, keyNewEntry]) ∧
    (∀ v, cacheGet s.goodCache s.currentKey = some v → v ≠ "" →
      (handleGoodPay s).goodLogs
        = s.goodLogs ++ [checkingEntry s.currentKey, keyFoundEntry]) ∧
    (handleGoodPay s).badLogs = s.badLogs ∧
    (cacheGet s.goodCache s.currentKey = none →
      (goodClicks N s).goodLogs = s.goodLogs ++ [checkingEntry s.currentKey, keyNewEntry] ++
        (List.replicate (N - 1) [checkingEntry s.currentKey, keyFoundEntry]).flatten) := by
  refine ⟨fun h => ?_, fun v h hv => ?_, ?_, fun h => ?_⟩
  · rw [handleGoodPay_new s (by rw [h]; rfl)]; rfl
  · rw [handleGoodPay_found s (by rw [h]; simpa [truthy] using hv)]; rfl
  · cases ht : truthy (cacheGet s.goodCache s.currentKey) with
    | true => rw [handleGoodPay_found s ht]
    | false => rw [handleGoodPay_new s ht]
  · obtain ⟨n, rfl⟩ : ∃ n, N = n + 1 := ⟨N - 1, by omega⟩
    have hnew := handleGoodPay_new s (by rw [h]; rfl)
    have hfound : truthy (cacheGet (handleGoodPay s).goodCache (handleGoodPay s).currentKey)
        = true := by
      rw [hnew]; simp [cacheGet_cachePut_self, truthy]
    rw [goodClicks, goodClicks_found_logs n (handleGoodPay s) hfound, hnew]
    simp [checkingEntry, keyNewEntry]

/-- Witness for C19: three clicks on the absent first key. -/
theorem goodPay_log_entries_witness :
    (goodClicks 3 (init "a")).goodLogs
      = [serverLogs, checkingEntry "key_a", keyNewEntry, checkingEntry "key_a",
         keyFoundEntry, checkingEntry "key_a", keyFoundEntry] :=
  ((goodPay_log_entries (init "a") 3 (by decide)).2.2.2 (by decide)).trans (by decide)

/-- C20: in every execution from the initial state that contains no `resetSim`, the
current key is the initial key, `goodBalance` is 1000 or 900, and `goodCache` is empty or
holds exactly one entry, under the current key. -/
theorem goodPay_single_key (k0 : String) (es : List Event)
    (hes : ∀ e ∈ es, e.isReset = false) :
    (run (init k0) es).currentKey = "key_" ++ k0 ∧
    ((run (init k0) es).goodBalance = 1000 ∨ (run (init k0) es).goodBalance = 900) ∧
    ((run (init k0) es).goodCache = [] ∨
      ∃ v, (run (init k0) es).goodCache = [((run (init k0) es).currentKey, v)]) := by
  obtain ⟨hk, h⟩ := singleKeyInv_run _ es (init k0) hes (singleKeyInv_init k0)
  refine ⟨hk, ?_, ?_⟩
  · rcases h with ⟨_, hb, _⟩ | ⟨_, hb, _⟩ | ⟨_, hb, _⟩
    · exact Or.inl hb
    · exact Or.inl hb
    · exact Or.inr hb
  · rw [hk]
    rcases h with ⟨hc, _, _⟩ | ⟨hc, _, _⟩ | ⟨hc, _, _⟩
    · exact Or.inl hc
    · exact Or.inr ⟨_, hc⟩
    · exact Or.inr ⟨_, hc⟩

/-- Witness for C20: three clicks, the charge, and a click on the other button. -/
theorem goodPay_single_key_witness :
    (run (init "a") [Event.goodPay, Event.badPay, Event.goodPay, Event.timeout 0,
      Event.goodPay]).currentKey = "key_" ++ "a" ∧
    ((run (init "a") [Event.goodPay, Event.badPay, Event.goodPay, Event.timeout 0,
        Event.goodPay]).goodBalance = 1000 ∨
      (run (init "a") [Event.goodPay, Event.badPay, Event.goodPay, Event.timeout 0,
        Event.goodPay]).goodBalance = 900) ∧
    ((run (init "a") [Event.goodPay, Event.badPay, Event.goodPay, Event.timeout 0,
        Event.goodPay]).goodCache = [] ∨
      ∃ v, (run (init "a") [Event.goodPay, Event.badPay, Event.goodPay, Event.timeout 0,
        Event.goodPay]).goodCache
        = [((run (init "a") [Event.goodPay, Event.badPay, Event.goodPay, Event.timeout 0,
            Event.goodPay]).currentKey, v)]) :=
  goodPay_single_key "a" [Event.goodPay, Event.badPay, Event.goodPay, Event.timeout 0,
    Event.goodPay] (by decide)

/-- C21: from a state with `badBalance = goodBalance = B >= 100` and a key without cache
entry, one `handleBadPay` click followed by its charge callback and one `handleGoodPay`
click followed by its charge callback give the same balance `B - 100`. -/
theorem single_charge_same_balance (s : State) (B : Int) (hbad : s.badBalance = B)
    (hgood : s.goodBalance = B) (hB : 100 ≤ B)
    (hkey : cacheGet s.goodCache s.currentKey = none) :
    (handleBadPay s).timers.get? (s.timers.length + 1) = some Timer.badCharge ∧
    (handleGoodPay s).timers.get? s.timers.length
      = some (Timer.goodCharge s.currentKey B) ∧
    (fire (handleBadPay s) (s.timers.length + 1)).badBalance = B - 100 ∧
    (fire (handleGoodPay s) s.timers.length).goodBalance = B - 100 ∧
    (fire (handleBadPay s) (s.timers.length + 1)).badBalance
      = (fire (handleGoodPay s) s.timers.length).goodBalance := by
  have hb := handleBadPay_accept s (by rw [hbad]; exact hB)
  have hg := handleGoodPay_new s (by rw [hkey]; rfl)
  have htb : (handleBadPay s).timers
      = (s.timers ++ [Timer.badClickDone]) ++ Timer.badCharge :: [] := by
    rw [hb]; simp
  have htg : (handleGoodPay s).timers
      = s.timers ++ Timer.goodCharge s.currentKey s.goodBalance :: [] := by rw [hg]
  have hfb := fire_badCharge (handleBadPay s) _ _ htb
  have hfg := fire_append_charge (handleGoodPay s) _ _ _ _ htg
  simp only [List.length_append, List.length_singleton] at hfb
  have h3 : (fire (handleBadPay s) (s.timers.length + 1)).badBalance = B - 100 := by
    rw [hfb, hb]; simp [hbad]
  have h4 : (fire (handleGoodPay s) s.timers.length).goodBalance = B - 100 := by
    rw [hfg, hg]
    simp [runTimer, hgood, hB, addLog]
  refine ⟨?_, ?_, h3, h4, h3.trans h4.symm⟩
  · rw [htb, List.get?_eq_getElem?,
      List.getElem?_append_right (by simp)]
    simp
  · rw [htg, List.get?_eq_getElem?, List.getElem?_append_right (le_refl _), hgood]
    simp

/-- Witness for C21: the initial state, both balances 1000, both results 900. -/
theorem single_charge_same_balance_witness :
    (fire (handleBadPay (init "a")) 1).badBalance = 900 ∧
    (fire (handleGoodPay (init "a")) 0).goodBalance = 900 :=
  ⟨((single_charge_same_balance (init "a") 1000 (by decide) (by decide) (by decide)
      (by decide)).2.2.1).trans (by decide),
   ((single_charge_same_balance (init "a") 1000 (by decide) (by decide) (by decide)
      (by decide)).2.2.2.1).trans (by decide)⟩

/-- C22: after `resetSim`, from every state, both balances are 1000, `goodCache` is
empty, both logs hold only the placeholder entry, `badWarning` and `goodSuccess` are
false and `badClickCount` is 0; `activeTab` and `detailPanel` are unchanged.  The render
effect adds nothing to this step. -/
theorem resetSim_initial_values (s : State) (suffix : String) :
    (resetSim s suffix).badBalance = 1000 ∧
    (resetSim s suffix).goodBalance = 1000 ∧
    (resetSim s suffix).goodCache = [] ∧
    (resetSim s suffix).badLogs
      = [{ msg := "// Server logs...", color := "text-slate-400" }] ∧
    (resetSim s suffix).goodLogs
      = [{ msg := "// Server logs...", color := "text-slate-400" }] ∧
    (resetSim s suffix).badWarning = false ∧
    (resetSim s suffix).goodSuccess = false ∧
    (resetSim s suffix).badClickCount = 0 ∧
    (resetSim s suffix).activeTab = s.activeTab ∧
    (resetSim s suffix).detailPanel = s.detailPanel ∧
    step s (Event.reset suffix) = resetSim s suffix :=
  ⟨rfl, rfl, rfl, rfl, rfl, rfl, rfl, rfl, rfl, rfl, step_reset s suffix⟩

/-- C23: in every execution from the initial state without `resetSim`, `badClickCount`
is the number of accepted `handleBadPay` clicks minus the number of their 2000 ms
callbacks that have fired, which is the number of such callbacks still pending; so it is
never negative, and it is 0 when none is pending. -/
theorem badClickCount_pending (k0 : String) (es : List Event)
    (hes : ∀ e ∈ es, e.isReset = false) :
    (run (init k0) es).badClickCount
      = (acceptedBadClicks (init k0) es : Int) - (firedBadClickDone (init k0) es : Int) ∧
    (run (init k0) es).badClickCount
      = ((run (init k0) es).timers.countP Timer.isBadClickDone : Int) ∧
    0 ≤ (run (init k0) es).badClickCount ∧
    ((run (init k0) es).timers.countP Timer.isBadClickDone = 0 →
      (run (init k0) es).badClickCount = 0) := by
  obtain ⟨h1, h2⟩ := badClickCount_run es (init k0) hes (by simp [init])
  have h0 : (init k0).badClickCount = 0 := rfl
  rw [h0] at h2
  refine ⟨by linarith, h1, ?_, fun hz => ?_⟩
  · rw [h1]; exact Int.natCast_nonneg _
  · rw [h1, hz]; rfl

/-- Witness for C23: two accepted clicks, one of the two 2000 ms callbacks fired. -/
theorem badClickCount_pending_witness :
    (run (init "a") [Event.badPay, Event.badPay, Event.timeout 0]).badClickCount = 1 :=
  ((badClickCount_pending "a" [Event.badPay, Event.badPay, Event.timeout 0]
    (by decide)).1).trans (by decide)

/-- C24, as the code behaves: after an event and its render `badWarning` is true whenever
`badClickCount` changed to a value greater than 1, and it is never switched from false to
true otherwise.  A lone accepted click from `badClickCount = 0` leaves `badWarning`
false; an accepted click made with `badClickCount >= 1` sets it; and in an execution from
the initial state without `resetSim`, an accepted click made while the 2000 ms callback
of an earlier click is still pending sets it. -/
theorem badWarning_on_overlap (s : State) (e : Event) :
    ((step s e).badClickCount ≠ s.badClickCount → 1 < (step s e).badClickCount →
      (step s e).badWarning = true) ∧
    (s.badWarning = false → (step s e).badWarning = true →
      (step s e).badClickCount ≠ s.badClickCount ∧ 1 < (step s e).badClickCount) ∧
    (s.badClickCount = 0 → s.badWarning = false →
      (step s Event.badPay).badWarning = false) ∧
    (1 ≤ s.badClickCount → 100 ≤ s.badBalance →
      (step s Event.badPay).badWarning = true) ∧
    (∀ k0 es, (∀ x ∈ es, x.isReset = false) →
      Timer.badClickDone ∈ (run (init k0) es).timers →
      100 ≤ (run (init k0) es).badBalance →
      (step (run (init k0) es) Event.badPay).badWarning = true) := by
  have h4 : ∀ t : State, 1 ≤ t.badClickCount → 100 ≤ t.badBalance →
      (step t Event.badPay).badWarning = true := by
    intro t hc hb
    rw [step_badWarning]
    have h1 : (handleEvent t Event.badPay).badClickCount = t.badClickCount + 1 := by
      show (handleBadPay t).badClickCount = _
      rw [handleBadPay_accept t hb]
    rw [if_pos ⟨by rw [h1]; omega, by rw [h1]; omega⟩]
  refine ⟨?_, ?_, ?_, h4 s, ?_⟩
  · intro h1 h2
    rw [step_badClickCount] at h1 h2
    rw [step_badWarning, if_pos ⟨h1, h2⟩]
  · intro h0 h1
    rw [step_badClickCount]
    rw [step_badWarning] at h1
    by_cases hc : (handleEvent s e).badClickCount ≠ s.badClickCount ∧
        (handleEvent s e).badClickCount > 1
    · exact hc
    · rw [if_neg hc, handleEvent_badWarning_false s e h0] at h1
      exact absurd h1 (by decide)
  · intro hc hw
    rw [step_badWarning, handleEvent_badWarning_false s _ hw]
    by_cases hb : 100 ≤ s.badBalance
    · have : ¬ ((handleEvent s Event.badPay).badClickCount > 1) := by
        show ¬ ((handleBadPay s).badClickCount > 1)
        rw [handleBadPay_accept s hb]
        simp [hc]
      simp [this]
    · have : ¬ ((handleEvent s Event.badPay).badClickCount ≠ s.badClickCount) := by
        show ¬ ((handleBadPay s).badClickCount ≠ s.badClickCount)
        rw [handleBadPay_reject s (lt_of_not_le hb)]
        simp
      simp [this]
  · intro k0 es hes hmem hb
    apply h4 _ _ hb
    obtain ⟨h1, _⟩ := badClickCount_run es (init k0) hes (by simp [init])
    rw [h1]
    have hpos : 0 < (run (init k0) es).timers.countP Timer.isBadClickDone :=
      List.countP_pos_iff.mpr ⟨Timer.badClickDone, hmem, rfl⟩
    exact_mod_cast hpos

/-- Witness for the amended C24: the first click does not raise the warning; the second,
made while the first click's 2000 ms callback is pending, does. -/
theorem badWarning_on_overlap_witness :
    (step (init "a") Event.badPay).badWarning = false ∧
    (step (run (init "a") [Event.badPay]) Event.badPay).badWarning = true :=
  ⟨(badWarning_on_overlap (init "a") Event.badPay).2.2.1 (by decide) (by decide),
   (badWarning_on_overlap (init "a") Event.badPay).2.2.2.2 "a" [Event.badPay]
     (by decide) (by decide) (by decide)⟩

/-- C24 fails when `resetSim` comes between two clicks: after a click and a reset the
2000 ms callback of the first click is still pending; the second click is accepted, but
`badClickCount` goes from 0 to 1 and `badWarning` stays false. -/
theorem badWarning_missed_after_reset :
    (run (init "a") [Event.badPay, Event.reset "b"]).timers
      = [Timer.badClickDone, Timer.badCharge] ∧
    (run (init "a") [Event.badPay, Event.reset "b"]).badBalance = 1000 ∧
    (run (init "a") [Event.badPay, Event.reset "b"]).badClickCount = 0 ∧
    (run (init "a") [Event.badPay, Event.reset "b", Event.badPay]).badClickCount = 1 ∧
    (run (init "a") [Event.badPay, Event.reset "b", Event.badPay]).timers
      = [Timer.badClickDone, Timer.badCharge, Timer.badClickDone, Timer.badCharge] ∧
    (run (init "a") [Event.badPay, Event.reset "b", Event.badPay]).badWarning = false := by
  decide

end Idempotency

/-! ## The handlers of `LowLevelDesign.jsx` -/

namespace LowLevelDesign

theorem revealAnswer_of_mem (l : List Nat) (id : Nat) (h : id ∈ l) :
    revealAnswer l id = l := by
  simp [revealAnswer, h]

theorem revealAnswer_of_not_mem (l : List Nat) (id : Nat) (h : id ∉ l) :
    revealAnswer l id = l ++ [id] := by
  simp [revealAnswer, h]

theorem toggleEntity_of_mem (l : List String) (name : String) (b : Bool) (h : name ∈ l) :
    toggleEntity l name b = l.filter (fun e => e != name) := by
  simp [toggleEntity, h]

theorem toggleEntity_of_not_mem (l : List String) (name : String) (b : Bool)
    (h : name ∉ l) : toggleEntity l name b = if b then l ++ [name] else l := by
  simp [toggleEntity, h]

theorem toggleEntity_inv (P : String → Prop) (l : List String) (name : String) (b : Bool)
    (hnd : l.Nodup) (hP : ∀ n ∈ l, P n) (hb : b = true → P name) :
    (toggleEntity l name b).Nodup ∧ ∀ n ∈ toggleEntity l name b, P n := by
  by_cases hm : name ∈ l
  · rw [toggleEntity_of_mem l name b hm]
    exact ⟨hnd.filter _, fun n hn => hP n (List.mem_filter.mp hn).1⟩
  · rw [toggleEntity_of_not_mem l name b hm]
    cases b with
    | false => exact ⟨hnd, hP⟩
    | true =>
        simp only [if_true]
        refine ⟨?_, fun n hn => ?_⟩
        · exact List.Nodup.append hnd (List.nodup_singleton _) (by simpa using hm)
        · rcases List.mem_append.mp hn with h | h
          · exact hP n h
          · simp only [List.mem_singleton] at h
            subst h
            exact hb rfl

theorem toggleAll_inv (P : String → Prop) (calls : List (String × Bool)) (l : List String)
    (hnd : l.Nodup) (hP : ∀ n ∈ l, P n) (hc : ∀ c ∈ calls, c.2 = true → P c.1) :
    (toggleAll l calls).Nodup ∧ ∀ n ∈ toggleAll l calls, P n := by
  induction calls generalizing l with
  | nil => exact ⟨hnd, hP⟩
  | cons c cs ih =>
      obtain ⟨h1, h2⟩ := toggleEntity_inv P l c.1 c.2 hnd hP (hc c (List.mem_cons_self _ _))
      exact ih (toggleEntity l c.1 c.2) h1 h2 (fun x hx => hc x (List.mem_cons_of_mem _ hx))

/-- C25: for a list without duplicates and any id, `revealAnswer(id)` gives a list
without duplicates that contains `id` and is the old list, possibly followed by `id`;
a second `revealAnswer(id)` leaves that list unchanged. -/
theorem revealAnswer_idempotent (l : List Nat) (id : Nat) (hnd : l.Nodup) :
    (revealAnswer l id).Nodup ∧
    id ∈ revealAnswer l id ∧
    (revealAnswer l id = l ∨ revealAnswer l id = l ++ [id]) ∧
    revealAnswer (revealAnswer l id) id = revealAnswer l id := by
  by_cases h : id ∈ l
  · rw [revealAnswer_of_mem l id h, revealAnswer_of_mem l id h]
    exact ⟨hnd, h, Or.inl rfl, rfl⟩
  · rw [revealAnswer_of_not_mem l id h]
    refine ⟨?_, by simp, Or.inr rfl, revealAnswer_of_mem _ _ (by simp)⟩
    exact List.Nodup.append hnd (List.nodup_singleton _) (by simpa using h)

/-- Witness for C25: requirement 3 revealed after requirements 1 and 2. -/
theorem revealAnswer_idempotent_witness :
    revealAnswer (revealAnswer [1, 2] 3) 3 = revealAnswer [1, 2] 3 :=
  (revealAnswer_idempotent [1, 2] 3 (by decide)).2.2.2

/-- C26: from the empty selection, after any sequence of `toggleEntity(name, isCorrect)`
calls in which every name is always passed with the same flag, `selectedEntities` holds
no name twice, and every name in it was passed with the flag `true`, none with the flag
`false`. -/
theorem toggleEntity_selection (calls : List (String × Bool))
    (hflag : ∀ c1 ∈ calls, ∀ c2 ∈ calls, c1.1 = c2.1 → c1.2 = c2.2) :
    (toggleAll [] calls).Nodup ∧
    ∀ n ∈ toggleAll [] calls, (n, true) ∈ calls ∧ (n, false) ∉ calls := by
  obtain ⟨h1, h2⟩ := toggleAll_inv (fun n => (n, true) ∈ calls) calls [] List.nodup_nil
    (by simp) (fun c hc ht => by
      obtain ⟨n, b⟩ := c
      simp only at ht
      subst ht
      exact hc)
  refine ⟨h1, fun n hn => ⟨h2 n hn, fun hf => ?_⟩⟩
  have hb : true = false := hflag (n, true) (h2 n hn) (n, false) hf rfl
  exact absurd hb (by decide)

/-- Witness for C26: a correct entity selected, an incorrect one clicked, another
correct one selected, and the first one deselected. -/
theorem toggleEntity_selection_witness :
    (toggleAll [] [("Vehicle", true), ("Database", false), ("Gate", true),
      ("Vehicle", true)]).Nodup ∧
    ∀ n ∈ toggleAll [] [("Vehicle", true), ("Database", false), ("Gate", true),
        ("Vehicle", true)],
      (n, true) ∈ [("Vehicle", true), ("Database", false), ("Gate", true),
        ("Vehicle", true)] ∧
      (n, false) ∉ [("Vehicle", true), ("Database", false), ("Gate", true),
        ("Vehicle", true)] :=
  toggleEntity_selection [("Vehicle", true), ("Database", false), ("Gate", true),
    ("Vehicle", true)] (by decide)

/-- C27: on a list that does not contain `name` (duplicate-free or not),
`toggleEntity(name, true)` applied twice gives back exactly the list, and
`toggleEntity(name, false)` leaves it unchanged. -/
theorem toggleEntity_twice (l : List String) (name : String) (h : name ∉ l) :
    toggleEntity (toggleEntity l name true) name true = l ∧
    toggleEntity l name false = l := by
  constructor
  · rw [toggleEntity_of_not_mem l name true h]
    simp only [if_true]
    rw [toggleEntity_of_mem _ name true (by simp)]
    rw [List.filter_append]
    have h1 : l.filter (fun e => e != name) = l := by
      rw [List.filter_eq_self]
      intro a ha
      simp only [bne_iff_ne, ne_eq]
      exact fun e => h (e ▸ ha)
    simp [h1]
  · rw [toggleEntity_of_not_mem l name false h]
    rfl

/-- Witness for C27: `Ticket` toggled twice on a selection of two other entities. -/
theorem toggleEntity_twice_witness :
    toggleEntity (toggleEntity ["ParkingLot", "Vehicle"] "Ticket" true) "Ticket" true
      = ["ParkingLot", "Vehicle"] :=
  (toggleEntity_twice ["ParkingLot", "Vehicle"] "Ticket" (by decide)).1

end LowLevelDesign
